import Mathlib

/-!
Verification development for the lakers EDHOC implementation.

The Rust sources are shallowly embedded:
* bytes are `Nat` values (always < 256 where produced by the code; machine
  arithmetic on `u8` is made explicit with `% 256` where wrap-around matters);
* fallible code returns `Except` / `Option`;
* the CBOR decoder (`src/shared/src/lib.rs`, `mod cbor_decoder`) keeps the
  source's `(buf, pos)` representation, each `&mut self` method returning the
  possibly-advanced decoder next to its result, because the source mutates
  `self.pos` even on some error paths;
* `EdhocMessageBuffer` (capacity `MAX_MESSAGE_SIZE_LEN = 192`) is a plain
  `List Nat`; operations that check the capacity in Rust check `≤ 192` here,
  and the one `unwrap` on such a check (in `parse_ead`) is modelled by an
  outer `Option` whose `none` stands for a panic.
-/

namespace Lakers

/-- `MAX_MESSAGE_SIZE_LEN` from `src/shared/src/lib.rs`. -/
def MAX_MESSAGE_SIZE_LEN : Nat := 128 + 64

/-- `SUITES_LEN` from `src/shared/src/lib.rs`. -/
def SUITES_LEN : Nat := 9

/-- `EDHOC_METHOD` (stat-stat, the only supported method). -/
def EDHOC_METHOD : Nat := 3

/-- `MAC_LENGTH_2 = MAC_LENGTH_3 = MAC_LENGTH = 8`. -/
def MAC_LENGTH : Nat := 8

/-- `P256_ELEM_LEN` from `src/shared/src/lib.rs`. -/
def P256_ELEM_LEN : Nat := 32

/-- `CBOR_NEG_INT_1BYTE_START = 0x20`. -/
def CBOR_NEG_INT_1BYTE_START : Nat := 0x20

/-- `CBOR_MAJOR_BYTE_STRING = 0x40`. -/
def CBOR_MAJOR_BYTE_STRING : Nat := 0x40

/-- `CBOR_MAJOR_ARRAY = 0x80`. -/
def CBOR_MAJOR_ARRAY : Nat := 0x80

/-- The error enum `EDHOCError` from `src/shared/src/lib.rs`. -/
inductive EDHOCError where
  | UnknownPeer
  | MacVerificationFailed
  | UnsupportedMethod
  | UnsupportedCipherSuite
  | ParsingError
  | EadLabelTooLongError
  | EadTooLongError
  | EADError
  | UnknownError
deriving DecidableEq, Repr

/-- The error enum `CBORError` of `mod cbor_decoder`. -/
inductive CBORError where
  | DecodingError
deriving DecidableEq, Repr

/-- `impl From<CBORError> for EDHOCError`. -/
def CBORError.toEDHOCError : CBORError → EDHOCError
  | .DecodingError => .ParsingError

/-- The struct `CBORDecoder` of `mod cbor_decoder`: an immutable byte slice
and a cursor.  Bytes are `Nat`s (< 256 for all inputs the program builds). -/
structure CBORDecoder where
  buf : List Nat
  pos : Nat
deriving DecidableEq, Repr

namespace CBORDecoder

/-- `CBORDecoder::new`. -/
def new (bytes : List Nat) : CBORDecoder := ⟨bytes, 0⟩

/-- `CBORDecoder::read`: take the byte at `pos` and advance; on out-of-bounds
leave the cursor where it is.  The returned decoder is the state `self` was
left in by the Rust method. -/
def read (d : CBORDecoder) : Except CBORError Nat × CBORDecoder :=
  match d.buf[d.pos]? with
  | some b => (.ok b, ⟨d.buf, d.pos + 1⟩)
  | none => (.error .DecodingError, d)

/-- `CBORDecoder::read_slice`: consume and return `n` bytes starting at the
current position (`self.buf.get(self.pos..self.pos+n)`). -/
def read_slice (d : CBORDecoder) (n : Nat) : Except CBORError (List Nat) × CBORDecoder :=
  if d.pos + n ≤ d.buf.length then
    (.ok ((d.buf.drop d.pos).take n), ⟨d.buf, d.pos + n⟩)
  else
    (.error .DecodingError, d)

/-- `CBORDecoder::position`. -/
def position (d : CBORDecoder) : Nat := d.pos

/-- `CBORDecoder::finished`. -/
def finished (d : CBORDecoder) : Bool := d.pos == d.buf.length

/-- `CBORDecoder::remaining_buffer` (`self.buf.get(self.pos..)`). -/
def remaining_buffer (d : CBORDecoder) : Except CBORError (List Nat) :=
  if d.pos ≤ d.buf.length then .ok (d.buf.drop d.pos) else .error .DecodingError

/-- `CBORDecoder::current`: byte at the current position, no advance. -/
def current (d : CBORDecoder) : Except CBORError Nat :=
  match d.buf[d.pos]? with
  | some b => .ok b
  | none => .error .DecodingError

/-- `CBORDecoder::type_of` (`b & 0b111_00000`). -/
def type_of (b : Nat) : Nat := b &&& 0xE0

/-- `CBORDecoder::info_of` (`b & 0b000_11111`). -/
def info_of (b : Nat) : Nat := b &&& 0x1F

/-- `CBORDecoder::is_u8`: single-byte unsigned integer (0x00..=0x17). -/
def is_u8 (byte : Nat) : Bool := decide (byte ≤ 0x17)

/-- `CBORDecoder::is_i8`: single-byte negative integer (0x20..=0x37). -/
def is_i8 (byte : Nat) : Bool := decide (0x20 ≤ byte ∧ byte ≤ 0x37)

/-- `CBORDecoder::u8`. -/
def u8 (d : CBORDecoder) : Except CBORError Nat × CBORDecoder :=
  match read d with
  | (.ok n, d1) =>
    if n ≤ 0x17 then (.ok n, d1)
    else if n = 0x18 then read d1
    else (.error .DecodingError, d1)
  | (.error e, d1) => (.error e, d1)

/-- The `u8 as i8` cast: two's-complement reinterpretation of a byte. -/
def toI8 (b : Nat) : Int :=
  if b % 256 < 128 then ((b % 256 : Nat) : Int) else ((b % 256 : Nat) : Int) - 256

/-- `CBORDecoder::i8`.  In the `0x38` arm the source computes
`-1 - (self.read()? - 0x20) as i8`; the `u8` subtraction `m - 0x20` wraps in
release builds (and panics in debug builds when `m < 0x20`), modelled
explicitly as `(m + 256 - 0x20) % 256`. -/
def i8 (d : CBORDecoder) : Except CBORError Int × CBORDecoder :=
  match read d with
  | (.ok n, d1) =>
    if n ≤ 0x17 then (.ok (n : Int), d1)
    else if 0x20 ≤ n ∧ n ≤ 0x37 then (.ok (-1 - ((n - 0x20 : Nat) : Int)), d1)
    else if n = 0x18 then
      match read d1 with
      | (.ok m, d2) => (.ok (toI8 m), d2)
      | (.error e, d2) => (.error e, d2)
    else if n = 0x38 then
      match read d1 with
      | (.ok m, d2) => (.ok (-1 - toI8 ((m + 256 - 0x20) % 256)), d2)
      | (.error e, d2) => (.error e, d2)
    else (.error .DecodingError, d1)
  | (.error e, d1) => (.error e, d1)

/-- `CBORDecoder::int_raw`. -/
def int_raw (d : CBORDecoder) : Except CBORError Nat × CBORDecoder :=
  match read d with
  | (.ok n, d1) =>
    if n ≤ 0x17 ∨ (0x20 ≤ n ∧ n ≤ 0x37) then (.ok n, d1)
    else (.error .DecodingError, d1)
  | (.error e, d1) => (.error e, d1)

/-- `CBORDecoder::as_usize`. -/
def as_usize (d : CBORDecoder) (b : Nat) : Except CBORError Nat × CBORDecoder :=
  if b ≤ 0x17 then (.ok b, d)
  else if b = 0x18 then read d
  else (.error .DecodingError, d)

/-- `CBORDecoder::str`. -/
def str (d : CBORDecoder) : Except CBORError (List Nat) × CBORDecoder :=
  match read d with
  | (.ok b, d1) =>
    if type_of b ≠ 0x60 ∨ info_of b = 31 then (.error .DecodingError, d1)
    else
      match as_usize d1 (info_of b) with
      | (.ok n, d2) => read_slice d2 n
      | (.error e, d2) => (.error e, d2)
  | (.error e, d1) => (.error e, d1)

/-- `CBORDecoder::bytes`. -/
def bytes (d : CBORDecoder) : Except CBORError (List Nat) × CBORDecoder :=
  match read d with
  | (.ok b, d1) =>
    if type_of b ≠ CBOR_MAJOR_BYTE_STRING ∨ info_of b = 31 then (.error .DecodingError, d1)
    else
      match as_usize d1 (info_of b) with
      | (.ok n, d2) => read_slice d2 n
      | (.error e, d2) => (.error e, d2)
  | (.error e, d1) => (.error e, d1)

/-- `CBORDecoder::bytes_sized`. -/
def bytes_sized (d : CBORDecoder) (expected_size : Nat) :
    Except CBORError (List Nat) × CBORDecoder :=
  match bytes d with
  | (.ok res, d1) =>
    if res.length = expected_size then (.ok res, d1) else (.error .DecodingError, d1)
  | (.error e, d1) => (.error e, d1)

/-- `CBORDecoder::array`. -/
def array (d : CBORDecoder) : Except CBORError Nat × CBORDecoder :=
  match read d with
  | (.ok b, d1) =>
    if type_of b ≠ CBOR_MAJOR_ARRAY then (.error .DecodingError, d1)
    else if info_of b = 31 then (.error .DecodingError, d1)
    else as_usize d1 (info_of b)
  | (.error e, d1) => (.error e, d1)

end CBORDecoder

/-- The struct `EADItem` from `src/shared/src/lib.rs`; the value buffer is the
list of its meaningful bytes. -/
structure EADItem where
  label : Nat
  is_critical : Bool
  value : Option (List Nat)
deriving DecidableEq, Repr

/-- The enum `IdCred` from `src/shared/src/lib.rs`. -/
inductive IdCred where
  | CompactKid (kid : Nat)
  | FullCredential (value : List Nat)
deriving DecidableEq, Repr

/-- Result of a parser that may panic (`none` = panic, from the `unwrap` on
`fill_with_slice` in `parse_ead` when the tail exceeds the 192-byte buffer). -/
abbrev PRes (α : Type) : Type := Option (Except EDHOCError α)

/-- `edhoc_parser::parse_ead` from `src/shared/src/lib.rs`. -/
def parse_ead (buffer : List Nat) : PRes (Option EADItem) :=
  match buffer with
  | label :: tail =>
    let label_res : Except EDHOCError (Nat × Bool) :=
      if CBORDecoder.is_u8 label then .ok (label, false)
      else if CBORDecoder.is_i8 label then
        .ok (label - (CBOR_NEG_INT_1BYTE_START - 1), true)
      else .error .ParsingError
    match label_res with
    | .ok (label, is_critical) =>
      if tail.length > 0 then
        -- `buffer.fill_with_slice(tail).unwrap()`: panics if the tail
        -- does not fit the 192-byte `EdhocMessageBuffer`.
        if tail.length ≤ MAX_MESSAGE_SIZE_LEN then
          some (.ok (some ⟨label, is_critical, some tail⟩))
        else none
      else some (.ok (some ⟨label, is_critical, none⟩))
    | .error _ => some (.error .ParsingError)
  | [] => some (.error .ParsingError)

/-- The `for i in 0..suites_i_len { suites_i[i] = decoder.u8()? }` loop of
`parse_suites_i`, writing into the fixed `BytesSuites` array. -/
def readSuitesLoop : Nat → Nat → List Nat → CBORDecoder →
    Except EDHOCError (List Nat × CBORDecoder)
  | 0, _, acc, d => .ok (acc, d)
  | k + 1, i, acc, d =>
    match CBORDecoder.u8 d with
    | (.ok v, d1) => readSuitesLoop k (i + 1) (acc.set i v) d1
    | (.error e, _) => .error e.toEDHOCError

/-- `edhoc_parser::parse_suites_i` from `src/shared/src/lib.rs`. -/
def parse_suites_i (d : CBORDecoder) :
    Except EDHOCError (List Nat × Nat × CBORDecoder) :=
  let suites_i : List Nat := List.replicate SUITES_LEN 0
  match CBORDecoder.current d with
  | .ok curr =>
    if 0 = CBORDecoder.type_of curr then
      match CBORDecoder.u8 d with
      | (.ok v, d1) => .ok (suites_i.set 0 v, 1, d1)
      | (.error e, _) => .error e.toEDHOCError
    else if CBOR_MAJOR_ARRAY = CBORDecoder.type_of curr ∧ 2 ≤ CBORDecoder.info_of curr then
      match CBORDecoder.array d with
      | (.ok suites_i_len, d1) =>
        if suites_i_len ≤ suites_i.length then
          match readSuitesLoop suites_i_len 0 suites_i d1 with
          | .ok (suites, d2) => .ok (suites, suites_i_len, d2)
          | .error e => .error e
        else .error .ParsingError
      | (.error e, _) => .error e.toEDHOCError
    else .error .ParsingError
  | .error _ => .error .ParsingError

/-- `edhoc_parser::parse_message_1` from `src/shared/src/lib.rs`. -/
def parse_message_1 (rcvd_message_1 : List Nat) :
    PRes (Nat × List Nat × Nat × List Nat × Nat × Option EADItem) :=
  let d := CBORDecoder.new rcvd_message_1
  match CBORDecoder.u8 d with
  | (.error _, _) => some (.error .ParsingError)
  | (.ok method, d) =>
    match parse_suites_i d with
    | .error _ => some (.error .ParsingError)
    | .ok (suites_i, suites_i_len, d) =>
      match CBORDecoder.bytes_sized d P256_ELEM_LEN with
      | (.error _, _) => some (.error .ParsingError)
      | (.ok g_x, d) =>
        match CBORDecoder.int_raw d with
        | (.error _, _) => some (.error .ParsingError)
        | (.ok c_i, d) =>
          if rcvd_message_1.length > CBORDecoder.position d then
            match CBORDecoder.remaining_buffer d with
            | .error _ => some (.error .ParsingError)
            | .ok rest =>
              match parse_ead rest with
              | none => none
              | some (.ok ead_1) =>
                some (.ok (method, suites_i, suites_i_len, g_x, c_i, ead_1))
              | some (.error e) => some (.error e)
          else if CBORDecoder.finished d then
            some (.ok (method, suites_i, suites_i_len, g_x, c_i, none))
          else some (.error .ParsingError)

/-- `edhoc_parser::parse_message_2` from `src/shared/src/lib.rs`. -/
def parse_message_2 (rcvd_message_2 : List Nat) :
    Except EDHOCError (List Nat × List Nat) :=
  let d := CBORDecoder.new rcvd_message_2
  match CBORDecoder.bytes d with
  | (.error _, _) => .error .ParsingError
  | (.ok decoded, d) =>
    if CBORDecoder.finished d then
      if P256_ELEM_LEN ≤ decoded.length then
        let g_y := decoded.take P256_ELEM_LEN
        let c2 := decoded.drop P256_ELEM_LEN
        if c2.length ≤ MAX_MESSAGE_SIZE_LEN then .ok (g_y, c2)
        else .error .ParsingError
      else .error .ParsingError
    else .error .ParsingError

/-- `edhoc_parser::decode_plaintext_2` from `src/shared/src/lib.rs`. -/
def decode_plaintext_2 (plaintext_2 : List Nat) :
    PRes (Nat × IdCred × List Nat × Option EADItem) :=
  let d := CBORDecoder.new plaintext_2
  match CBORDecoder.int_raw d with
  | (.error _, _) => some (.error .ParsingError)
  | (.ok c_r, d) =>
    -- NOTE from the source: a bstr of len 1 is a compact kid and must be int
    let id_cred_branch :
        Except EDHOCError (IdCred × CBORDecoder) :=
      match CBORDecoder.current d with
      | .error _ => .error .ParsingError
      | .ok curr =>
        if CBOR_MAJOR_BYTE_STRING = CBORDecoder.type_of curr ∧
            1 < CBORDecoder.info_of curr then
          match CBORDecoder.bytes d with
          | (.ok v, d1) => .ok (.FullCredential v, d1)
          | (.error _, _) => .error .ParsingError
        else
          match CBORDecoder.int_raw d with
          | (.ok kid, d1) => .ok (.CompactKid kid, d1)
          | (.error _, _) => .error .ParsingError
    match id_cred_branch with
    | .error e => some (.error e)
    | .ok (id_cred_r, d) =>
      match CBORDecoder.bytes_sized d MAC_LENGTH with
      | (.error _, _) => some (.error .ParsingError)
      | (.ok mac_2, d) =>
        if plaintext_2.length > CBORDecoder.position d then
          match CBORDecoder.remaining_buffer d with
          | .error _ => some (.error .ParsingError)
          | .ok rest =>
            match parse_ead rest with
            | none => none
            | some (.ok ead_2) => some (.ok (c_r, id_cred_r, mac_2, ead_2))
            | some (.error e) => some (.error e)
        else if CBORDecoder.finished d then
          some (.ok (c_r, id_cred_r, mac_2, none))
        else some (.error .ParsingError)

/-- `edhoc_parser::decode_plaintext_3` from `src/shared/src/lib.rs`. -/
def decode_plaintext_3 (plaintext_3 : List Nat) :
    PRes (IdCred × List Nat × Option EADItem) :=
  let d := CBORDecoder.new plaintext_3
  let id_cred_branch :
      Except EDHOCError (IdCred × CBORDecoder) :=
    match CBORDecoder.current d with
    | .error _ => .error .ParsingError
    | .ok curr =>
      if CBOR_MAJOR_BYTE_STRING = CBORDecoder.type_of curr ∧
          1 < CBORDecoder.info_of curr then
        match CBORDecoder.bytes d with
        | (.ok v, d1) => .ok (.FullCredential v, d1)
        | (.error _, _) => .error .ParsingError
      else
        match CBORDecoder.int_raw d with
        | (.ok kid, d1) => .ok (.CompactKid kid, d1)
        | (.error _, _) => .error .ParsingError
  match id_cred_branch with
  | .error e => some (.error e)
  | .ok (id_cred_i, d) =>
    match CBORDecoder.bytes_sized d MAC_LENGTH with
    | (.error _, _) => some (.error .ParsingError)
    | (.ok mac_3, d) =>
      if plaintext_3.length > CBORDecoder.position d then
        match CBORDecoder.remaining_buffer d with
        | .error _ => some (.error .ParsingError)
        | .ok rest =>
          match parse_ead rest with
          | none => none
          | some (.ok ead_3) => some (.ok (id_cred_i, mac_3, ead_3))
          | some (.error e) => some (.error e)
      else if CBORDecoder.finished d then
        some (.ok (id_cred_i, mac_3, none))
      else some (.error .ParsingError)

/-- `helpers::encode_info` from `src/shared/src/lib.rs`: the CBOR `info`
sequence `label, bstr(context), length` (the buffer view: only the
`info_len`-byte prefix the source hands to `hkdf_expand`).  The `as u8` casts
are made explicit with `% 256`. -/
def encode_info (label : Nat) (context : List Nat) (length : Nat) : List Nat :=
  [label] ++
    (if context.length < 24 then (CBOR_MAJOR_BYTE_STRING ||| context.length) :: context
     else [0x58, context.length % 256] ++ context) ++
    (if length < 24 then [length] else [0x18, length % 256])

/-- The struct `CredentialRPK` (`mod cred` of `src/shared` is declared but its
file is not part of the sources).  Modelled from the spec: a credential
wrapping a CBOR-encoded CCS, exposing `value` (raw bytes), `kid` (1-byte key
identifier) and `public_key` (32-byte P-256 x-coordinate); the spec's §4.7
distinguishes reference-only (compact-kid) credentials from full ones, carried
here as the `ref_only` field read by `reference_only`. -/
structure CredentialRPK where
  value : List Nat
  kid : Nat
  public_key : List Nat
  ref_only : Bool
deriving DecidableEq, Repr

/-- `CredentialRPK::reference_only`.  Modelled from the spec (the `cred`
module is not in the sources): reports whether the credential carries only a
kid reference. -/
def CredentialRPK.reference_only (c : CredentialRPK) : Bool := c.ref_only

/-- Outcome of `credential_check_or_fetch`, whose `else` arm runs
`assert!(!id_cred_received.reference_only())`: `panic` models that assertion
firing. -/
inductive CredCheckResult where
  | ok (c : CredentialRPK)
  | err (e : EDHOCError)
  | panic
deriving DecidableEq, Repr

/-- `credential_check_or_fetch` from `src/lib/src/lib.rs`. -/
def credential_check_or_fetch (cred_expected : Option CredentialRPK)
    (id_cred_received : CredentialRPK) : CredCheckResult :=
  match cred_expected with
  | some cred_expected =>
    let credentials_match :=
      if id_cred_received.reference_only then
        id_cred_received.kid = cred_expected.kid
      else
        id_cred_received.value = cred_expected.value
    if credentials_match then .ok cred_expected else .err .UnknownPeer
  | none =>
    -- `assert!(!id_cred_received.reference_only()); Ok(id_cred_received)`
    if id_cred_received.reference_only then .panic else .ok id_cred_received

/-- `generate_connection_identifier` from `src/lib/src/lib.rs`: draw bytes
from the random source until one reinterprets (as `i8`) into `[-24, 23]`.
The random source is modelled as the list of bytes `get_random_byte` will
return; `none` means the stream was exhausted before the loop exited. -/
def generate_connection_identifier : List Nat → Option Int
  | [] => none
  | b :: rest =>
    let conn_id := CBORDecoder.toI8 b
    if conn_id < -24 ∨ conn_id > 23 then generate_connection_identifier rest
    else some conn_id

/-- The encoding arm of `generate_connection_identifier_cbor` from
`src/lib/src/lib.rs`, factored over the already-drawn identifier `c_i`:
verbatim for `0..=23`, `CBOR_NEG_INT_1BYTE_START - 1 + c_i.unsigned_abs()`
for `-24..=-1`, and the `0` sentinel otherwise. -/
def connection_identifier_to_cbor (c_i : Int) : Nat :=
  if 0 ≤ c_i ∧ c_i ≤ 23 then c_i.toNat
  else if c_i < 0 ∧ -24 ≤ c_i then CBOR_NEG_INT_1BYTE_START - 1 + c_i.natAbs
  else 0

/-- `generate_connection_identifier_cbor` from `src/lib/src/lib.rs`, over the
same modelled random stream. -/
def generate_connection_identifier_cbor (stream : List Nat) : Option Nat :=
  (generate_connection_identifier stream).map connection_identifier_to_cbor

/-!
## The EDHOC core (spec-modelled)

`src/lib/src/lib.rs` declares `mod edhoc` but the module's file is not among
the sources; only its callers (the typestate wrappers and the `test_handshake`
tests) are.  The transitions below are therefore modelled from the spec
(§4.3–§4.6), over an abstract primitive surface (§2 item 1 / §6), reusing the
parsers of `src/shared` where those exist in the sources.  Each definition's
doc comment names its spec section.
-/

/-- Modelled from the spec (§2, §6): the abstract primitive surface the core
consumes.  `pub_of` names the public half `p256_generate_key_pair` returns
for a private key, so that honest key pairs can be related to ECDH. -/
structure Crypto where
  sha256 : List Nat → List Nat
  hkdf_extract : List Nat → List Nat → List Nat
  hkdf_expand : List Nat → List Nat → Nat → List Nat
  aes_ccm_encrypt : List Nat → List Nat → List Nat → List Nat → List Nat
  aes_ccm_decrypt : List Nat → List Nat → List Nat → List Nat → Option (List Nat)
  p256_ecdh : List Nat → List Nat → List Nat
  pub_of : List Nat → List Nat

/-- Modelled from the spec (§4.3): `edhoc_kdf(prk, label, context, length) =
HKDF-Expand(prk, info, length)` with `info` built by `encode_info` (which is
in the sources, `src/shared`). -/
def edhoc_kdf (c : Crypto) (prk : List Nat) (label : Nat) (context : List Nat)
    (length : Nat) : List Nat :=
  c.hkdf_expand prk (encode_info label context length) length

/-- CBOR byte-string framing of a 32-byte value (`0x58 0x20` head), used by
the transcript hashes (spec §4.3: "bstr(G_Y, 32) concatenated with
bstr(H_m1, 32)"). -/
def bstr32 (b : List Nat) : List Nat := 0x58 :: 0x20 :: b

/-- CBOR byte-string framing of an arbitrary (< 256 bytes) value, as the
encoder side emits it (spec §4.2/§4.3: single-byte head `0x40|len` below 24,
`0x58 len` otherwise). -/
def encode_bstr (b : List Nat) : List Nat :=
  if b.length < 24 then (CBOR_MAJOR_BYTE_STRING ||| b.length) :: b
  else 0x58 :: b.length % 256 :: b

/-- Modelled from the spec (§3 data model, test vectors `ID_CRED_x =
a104 41 kid`; `ID_CRED_LEN = 4` in the sources): the COSE header map
`{4 : bstr kid}` serialization of a by-reference credential identifier,
used inside the MAC contexts. -/
def encode_id_cred_kid (kid : Nat) : List Nat := [0xA1, 0x04, 0x41, kid]

/-- Modelled from the spec (§4.3): the COSE_Encrypt0 `Enc_structure`
`["Encrypt0", h'', bstr(TH_3)]` used as AAD for message_3
(`ENC_STRUCTURE_LEN = 8 + 5 + 32` in the sources). -/
def enc_structure (th_3 : List Nat) : List Nat :=
  [0x83, 0x68, 0x45, 0x6E, 0x63, 0x72, 0x79, 0x70, 0x74, 0x30, 0x40] ++ bstr32 th_3

/-- XOR of byte sequences (spec §4.3: `CIPHERTEXT_2 = PLAINTEXT_2 XOR
KEYSTREAM_2`). -/
def xorBytes (a b : List Nat) : List Nat := List.zipWith (· ^^^ ·) a b

/-- The state `InitiatorStart` from `src/shared/src/lib.rs`. -/
structure InitiatorStart where
  suites_i : List Nat
  suites_i_len : Nat
  x : List Nat
  g_x : List Nat

/-- The state `WaitM2` from `src/shared/src/lib.rs`. -/
structure WaitM2 where
  x : List Nat
  h_message_1 : List Nat

/-- The state `ProcessingM2` from `src/shared/src/lib.rs`. -/
structure ProcessingM2 where
  mac_2 : List Nat
  prk_2e : List Nat
  th_2 : List Nat
  x : List Nat
  g_y : List Nat
  plaintext_2 : List Nat
  c_r : Nat
  ead_2 : Option EADItem

/-- The state `ProcessedM2` from `src/shared/src/lib.rs`. -/
structure ProcessedM2 where
  prk_3e2m : List Nat
  prk_4e3m : List Nat
  th_3 : List Nat

/-- The state `Completed` from `src/shared/src/lib.rs`. -/
structure Completed where
  prk_out : List Nat
  prk_exporter : List Nat

/-- The state `ResponderStart` from `src/shared/src/lib.rs`. -/
structure ResponderStart where
  y : List Nat
  g_y : List Nat

/-- The state `ProcessingM1` from `src/shared/src/lib.rs`. -/
structure ProcessingM1 where
  y : List Nat
  g_y : List Nat
  c_i : Nat
  g_x : List Nat
  h_message_1 : List Nat

/-- The state `WaitM3` from `src/shared/src/lib.rs`. -/
structure WaitM3 where
  y : List Nat
  prk_3e2m : List Nat
  th_3 : List Nat

/-- The state `ProcessingM3` from `src/shared/src/lib.rs`. -/
structure ProcessingM3 where
  mac_3 : List Nat
  y : List Nat
  prk_3e2m : List Nat
  th_3 : List Nat
  plaintext_3 : List Nat
  ead_3 : Option EADItem

/-- Modelled from the spec (§4.4/§4.5, the `edhoc` module file is absent):
the wire encoding of message_1 — `method` (single-byte int), `suites_i`
(bare int when one suite, array head otherwise), `G_X` as `bstr[32]`,
`C_I` (single-byte int, already CBOR in the implementation). -/
def encode_message_1 (method : Nat) (suites : List Nat) (g_x : List Nat)
    (c_i : Nat) : List Nat :=
  [method] ++
    (if suites.length = 1 then suites else (CBOR_MAJOR_ARRAY ||| suites.length) :: suites) ++
    bstr32 g_x ++ [c_i]

/-- Modelled from the spec (§4.5 `prepare_message_1`): encode message_1,
hash it into `h_message_1`, move to `WaitM2`.  Overflow of the 192-byte
message buffer is an error (§4.1). -/
def i_prepare_message_1 (c : Crypto) (st : InitiatorStart) (c_i : Nat) :
    Except EDHOCError (WaitM2 × List Nat) :=
  let message_1 := encode_message_1 EDHOC_METHOD (st.suites_i.take st.suites_i_len) st.g_x c_i
  if message_1.length ≤ MAX_MESSAGE_SIZE_LEN then
    .ok (⟨st.x, c.sha256 message_1⟩, message_1)
  else .error .UnknownError

/-- Modelled from the spec (§4.6 `process_message_1`): parse with the
sources' `parse_message_1`, reject `method ≠ 3` with `UnsupportedMethod` and
a `suites_i` whose last element is not the supported suite 2 with
`UnsupportedCipherSuite`, then record `g_x`, `c_i` and `h_message_1`. -/
def r_process_message_1 (c : Crypto) (st : ResponderStart) (message_1 : List Nat) :
    PRes (ProcessingM1 × Option EADItem) :=
  match parse_message_1 message_1 with
  | none => none
  | some (.error e) => some (.error e)
  | some (.ok (method, suites_i, suites_i_len, g_x, c_i, ead_1)) =>
    if method ≠ EDHOC_METHOD then some (.error .UnsupportedMethod)
    else if suites_i.getD (suites_i_len - 1) 0 ≠ 2 then
      some (.error .UnsupportedCipherSuite)
    else
      some (.ok (⟨st.y, st.g_y, c_i, g_x, c.sha256 message_1⟩, ead_1))

/-- Modelled from the spec (§4.3, §4.6 `prepare_message_2`, with the
by-reference credential transfer the round-trip test exercises):
`TH_2 = SHA256(bstr(G_Y) ‖ bstr(H_m1))`; `PRK_2e = Extract(TH_2, ECDH(y,G_X))`;
`SALT_3e2m = kdf(PRK_2e,1,TH_2,32)`; `PRK_3e2m = Extract(SALT_3e2m, ECDH(r,G_X))`;
`MAC_2 = kdf(PRK_3e2m,2, ID_CRED_R ‖ bstr(TH_2) ‖ CRED_R, 8)`;
`PLAINTEXT_2 = C_R, ID_CRED_R (compact kid), bstr8(MAC_2)`;
`CIPHERTEXT_2 = PLAINTEXT_2 XOR kdf(PRK_2e,0,TH_2,|PT2|)`;
message_2 is the bstr of `G_Y ‖ CIPHERTEXT_2`;
`TH_3 = SHA256(bstr(TH_2) ‖ PLAINTEXT_2 ‖ CRED_R)`. -/
def r_prepare_message_2 (c : Crypto) (st : ProcessingM1) (cred_r : CredentialRPK)
    (r : List Nat) (c_r : Nat) : Except EDHOCError (WaitM3 × List Nat) :=
  let th_2 := c.sha256 (bstr32 st.g_y ++ bstr32 st.h_message_1)
  let g_xy := c.p256_ecdh st.y st.g_x
  let prk_2e := c.hkdf_extract th_2 g_xy
  let salt_3e2m := edhoc_kdf c prk_2e 1 th_2 32
  let g_rx := c.p256_ecdh r st.g_x
  let prk_3e2m := c.hkdf_extract salt_3e2m g_rx
  let id_cred_r := encode_id_cred_kid cred_r.kid
  let mac_2 := edhoc_kdf c prk_3e2m 2 (id_cred_r ++ bstr32 th_2 ++ cred_r.value) 8
  let plaintext_2 := c_r :: cred_r.kid :: 0x48 :: mac_2
  let keystream_2 := edhoc_kdf c prk_2e 0 th_2 plaintext_2.length
  let ciphertext_2 := xorBytes plaintext_2 keystream_2
  let message_2 := encode_bstr (st.g_y ++ ciphertext_2)
  let th_3 := c.sha256 (bstr32 th_2 ++ plaintext_2 ++ cred_r.value)
  if message_2.length ≤ MAX_MESSAGE_SIZE_LEN then
    .ok (⟨st.y, prk_3e2m, th_3⟩, message_2)
  else .error .UnknownError

/-- Modelled from the spec (§4.5 `parse_message_2`): split `G_Y ‖ CT2` with
the sources' `parse_message_2`, compute `TH_2`, `PRK_2e` and `KEYSTREAM_2`,
decrypt, and decode PLAINTEXT_2 with the sources' `decode_plaintext_2`; a
compact-kid `ID_CRED_R` is surfaced as a reference-only credential for the
caller's `credential_check_or_fetch` (full-credential parsing belongs to the
absent `cred` module and is not modelled). -/
def i_parse_message_2 (c : Crypto) (st : WaitM2) (message_2 : List Nat) :
    PRes (ProcessingM2 × Nat × CredentialRPK × Option EADItem) :=
  match parse_message_2 message_2 with
  | .error e => some (.error e)
  | .ok (g_y, ciphertext_2) =>
    let th_2 := c.sha256 (bstr32 g_y ++ bstr32 st.h_message_1)
    let g_xy := c.p256_ecdh st.x g_y
    let prk_2e := c.hkdf_extract th_2 g_xy
    let keystream_2 := edhoc_kdf c prk_2e 0 th_2 ciphertext_2.length
    let plaintext_2 := xorBytes ciphertext_2 keystream_2
    match decode_plaintext_2 plaintext_2 with
    | none => none
    | some (.error e) => some (.error e)
    | some (.ok (c_r, id_cred_r, mac_2, ead_2)) =>
      match id_cred_r with
      | .CompactKid kid =>
        some (.ok (⟨mac_2, prk_2e, th_2, st.x, g_y, plaintext_2, c_r, ead_2⟩,
          c_r, ⟨[], kid, [], true⟩, ead_2))
      | .FullCredential _ => some (.error .ParsingError)

/-- Modelled from the spec (§4.5 `verify_message_2`): recompute `PRK_3e2m`
from `ECDH(x, G_R)` and `MAC_2'` over the received identifier and the valid
credential; on mismatch `MacVerificationFailed`; then `TH_3`, `G_IY =
ECDH(i, G_Y)` and `PRK_4e3m`. -/
def i_verify_message_2 (c : Crypto) (st : ProcessingM2)
    (valid_cred_r : CredentialRPK) (i : List Nat) :
    Except EDHOCError ProcessedM2 :=
  let salt_3e2m := edhoc_kdf c st.prk_2e 1 st.th_2 32
  let g_rx := c.p256_ecdh st.x valid_cred_r.public_key
  let prk_3e2m := c.hkdf_extract salt_3e2m g_rx
  let id_cred_r := encode_id_cred_kid valid_cred_r.kid
  let mac_2 := edhoc_kdf c prk_3e2m 2 (id_cred_r ++ bstr32 st.th_2 ++ valid_cred_r.value) 8
  if mac_2 = st.mac_2 then
    let th_3 := c.sha256 (bstr32 st.th_2 ++ st.plaintext_2 ++ valid_cred_r.value)
    let g_iy := c.p256_ecdh i st.g_y
    let salt_4e3m := edhoc_kdf c prk_3e2m 5 th_3 32
    let prk_4e3m := c.hkdf_extract salt_4e3m g_iy
    .ok ⟨prk_3e2m, prk_4e3m, th_3⟩
  else .error .MacVerificationFailed

/-- Modelled from the spec (§4.3, §4.5 `prepare_message_3`, by-reference
transfer): `MAC_3 = kdf(PRK_4e3m,6, ID_CRED_I ‖ bstr(TH_3) ‖ CRED_I, 8)`;
`PLAINTEXT_3 = ID_CRED_I (compact kid), bstr8(MAC_3)`; encrypt under
`K_3 = kdf(PRK_3e2m,3,TH_3,16)`, `IV_3 = kdf(PRK_3e2m,4,TH_3,13)` with AAD
`Enc0(TH_3)`; message_3 is the bstr of CIPHERTEXT_3;
`TH_4 = SHA256(bstr(TH_3) ‖ PLAINTEXT_3 ‖ CRED_I)`;
`PRK_out = kdf(PRK_4e3m,7,TH_4,32)`; `PRK_exporter = kdf(PRK_out,10,[],32)`. -/
def i_prepare_message_3 (c : Crypto) (st : ProcessedM2) (cred_i : CredentialRPK) :
    Except EDHOCError (Completed × List Nat × List Nat) :=
  let id_cred_i := encode_id_cred_kid cred_i.kid
  let mac_3 := edhoc_kdf c st.prk_4e3m 6 (id_cred_i ++ bstr32 st.th_3 ++ cred_i.value) 8
  let plaintext_3 := cred_i.kid :: 0x48 :: mac_3
  let k_3 := edhoc_kdf c st.prk_3e2m 3 st.th_3 16
  let iv_3 := edhoc_kdf c st.prk_3e2m 4 st.th_3 13
  let ciphertext_3 := c.aes_ccm_encrypt k_3 iv_3 (enc_structure st.th_3) plaintext_3
  let message_3 := encode_bstr ciphertext_3
  let th_4 := c.sha256 (bstr32 st.th_3 ++ plaintext_3 ++ cred_i.value)
  let prk_out := edhoc_kdf c st.prk_4e3m 7 th_4 32
  let prk_exporter := edhoc_kdf c prk_out 10 [] 32
  if message_3.length ≤ MAX_MESSAGE_SIZE_LEN then
    .ok (⟨prk_out, prk_exporter⟩, message_3, prk_out)
  else .error .UnknownError

/-- Modelled from the spec (§4.4, §4.6 `parse_message_3`): message_3 is one
bstr holding CIPHERTEXT_3 (decoded with the sources' `CBORDecoder::bytes`);
decrypt it under `K_3, IV_3, Enc0(TH_3)` — AEAD failure surfaces as
`MacVerificationFailed` (§6) — and decode PLAINTEXT_3 with the sources'
`decode_plaintext_3`, returning `ID_CRED_I` for the caller's lookup. -/
def r_parse_message_3 (c : Crypto) (st : WaitM3) (message_3 : List Nat) :
    PRes (ProcessingM3 × CredentialRPK × Option EADItem) :=
  match CBORDecoder.bytes (CBORDecoder.new message_3) with
  | (.error _, _) => some (.error .ParsingError)
  | (.ok ciphertext_3, d) =>
    if CBORDecoder.finished d then
      let k_3 := edhoc_kdf c st.prk_3e2m 3 st.th_3 16
      let iv_3 := edhoc_kdf c st.prk_3e2m 4 st.th_3 13
      match c.aes_ccm_decrypt k_3 iv_3 (enc_structure st.th_3) ciphertext_3 with
      | none => some (.error .MacVerificationFailed)
      | some plaintext_3 =>
        match decode_plaintext_3 plaintext_3 with
        | none => none
        | some (.error e) => some (.error e)
        | some (.ok (id_cred_i, mac_3, ead_3)) =>
          match id_cred_i with
          | .CompactKid kid =>
            some (.ok (⟨mac_3, st.y, st.prk_3e2m, st.th_3, plaintext_3, ead_3⟩,
              ⟨[], kid, [], true⟩, ead_3))
          | .FullCredential _ => some (.error .ParsingError)
    else some (.error .ParsingError)

/-- Modelled from the spec (§4.6 `verify_message_3`): recompute `PRK_4e3m`
from `ECDH(y, G_I)` and `MAC_3'`; compare; then `TH_4`, `PRK_out`,
`PRK_exporter`. -/
def r_verify_message_3 (c : Crypto) (st : ProcessingM3)
    (valid_cred_i : CredentialRPK) : Except EDHOCError (Completed × List Nat) :=
  let salt_4e3m := edhoc_kdf c st.prk_3e2m 5 st.th_3 32
  let g_iy := c.p256_ecdh st.y valid_cred_i.public_key
  let prk_4e3m := c.hkdf_extract salt_4e3m g_iy
  let id_cred_i := encode_id_cred_kid valid_cred_i.kid
  let mac_3 := edhoc_kdf c prk_4e3m 6 (id_cred_i ++ bstr32 st.th_3 ++ valid_cred_i.value) 8
  if mac_3 = st.mac_3 then
    let th_4 := c.sha256 (bstr32 st.th_3 ++ st.plaintext_3 ++ valid_cred_i.value)
    let prk_out := edhoc_kdf c prk_4e3m 7 th_4 32
    let prk_exporter := edhoc_kdf c prk_out 10 [] 32
    .ok (⟨prk_out, prk_exporter⟩, prk_out)
  else .error .MacVerificationFailed

/-- Modelled from the spec (§4.5 `edhoc_exporter`): `edhoc_kdf(PRK_exporter,
label, context, len)` on a Done state. -/
def edhoc_exporter (c : Crypto) (st : Completed) (label : Nat)
    (context : List Nat) (length : Nat) : List Nat :=
  edhoc_kdf c st.prk_exporter label context length

/-- The values the round-trip test (`test_handshake` in `src/lib/src/lib.rs`)
compares between the two Done states. -/
structure HandshakeOutcome where
  i_prk_out : List Nat
  r_prk_out : List Nat
  i_oscore_secret : List Nat
  r_oscore_secret : List Nat
  i_oscore_salt : List Nat
  r_oscore_salt : List Nat
deriving DecidableEq, Repr

/-- The full three-message handshake of `test_handshake`
(`src/lib/src/lib.rs` and `src/examples/lakers-no_std/src/main.rs`), with the
ephemeral key pairs `(x, g_x = pub_of x)`, `(y, g_y = pub_of y)` drawn by
`new`, connection identifiers `c_i`, `c_r`, and by-reference credential
transfer; `none` is any error or panic along the way. -/
def handshake (c : Crypto) (cred_i : CredentialRPK) (i : List Nat)
    (cred_r : CredentialRPK) (r : List Nat) (x y : List Nat) (c_i c_r : Nat) :
    Option HandshakeOutcome :=
  let initiator : InitiatorStart := ⟨2 :: List.replicate 8 0, 1, x, c.pub_of x⟩
  let responder : ResponderStart := ⟨y, c.pub_of y⟩
  match i_prepare_message_1 c initiator c_i with
  | .error _ => none
  | .ok (i_wait_m2, message_1) =>
    match r_process_message_1 c responder message_1 with
    | none => none
    | some (.error _) => none
    | some (.ok (r_processing_m1, _ead_1)) =>
      match r_prepare_message_2 c r_processing_m1 cred_r r c_r with
      | .error _ => none
      | .ok (r_wait_m3, message_2) =>
        match i_parse_message_2 c i_wait_m2 message_2 with
        | none => none
        | some (.error _) => none
        | some (.ok (i_processing_m2, _c_r, id_cred_r, _ead_2)) =>
          match credential_check_or_fetch (some cred_r) id_cred_r with
          | .err _ => none
          | .panic => none
          | .ok valid_cred_r =>
            match i_verify_message_2 c i_processing_m2 valid_cred_r i with
            | .error _ => none
            | .ok i_processed_m2 =>
              match i_prepare_message_3 c i_processed_m2 cred_i with
              | .error _ => none
              | .ok (i_done, message_3, i_prk_out) =>
                match r_parse_message_3 c r_wait_m3 message_3 with
                | none => none
                | some (.error _) => none
                | some (.ok (r_processing_m3, id_cred_i, _ead_3)) =>
                  match credential_check_or_fetch (some cred_i) id_cred_i with
                  | .err _ => none
                  | .panic => none
                  | .ok valid_cred_i =>
                    match r_verify_message_3 c r_processing_m3 valid_cred_i with
                    | .error _ => none
                    | .ok (r_done, r_prk_out) =>
                      some ⟨i_prk_out, r_prk_out,
                        edhoc_exporter c i_done 0 [] 16,
                        edhoc_exporter c r_done 0 [] 16,
                        edhoc_exporter c i_done 1 [] 8,
                        edhoc_exporter c r_done 1 [] 8⟩

/-- A degenerate but well-typed crypto backend used to instantiate the
handshake theorem on concrete inputs: ECDH is constant (hence commutative on
honest pairs), HKDF-Expand returns the requested number of bytes, and
AES-CCM appends an 8-byte tag that decryption strips. -/
def cryptoW : Crypto where
  sha256 := fun _ => List.replicate 32 0
  hkdf_extract := fun _ _ => List.replicate 32 1
  hkdf_expand := fun _ _ len => List.replicate len 2
  aes_ccm_encrypt := fun _ _ _ pt => pt ++ List.replicate 8 0
  aes_ccm_decrypt := fun _ _ _ ct => some (ct.take (ct.length - 8))
  p256_ecdh := fun _ _ => List.replicate 32 4
  pub_of := fun _ => List.replicate 32 3

/-- A concrete initiator credential for instantiating the handshake. -/
def credIW : CredentialRPK := ⟨[0xA1, 0x04, 0x41, 0x2B], 0x2B, List.replicate 32 3, false⟩

/-- A concrete responder credential for instantiating the handshake. -/
def credRW : CredentialRPK := ⟨[0xA1, 0x04, 0x41, 0x0A], 0x0A, List.replicate 32 3, false⟩

/-- Successive `List.set` writes at consecutive indices, the shape of the
`for`-loop in `parse_suites_i` filling the `BytesSuites` array. -/
def setSeq (acc : List Nat) (i : Nat) : List Nat → List Nat
  | [] => acc
  | e :: es => setSeq (acc.set i e) (i + 1) es

/-- Wire encoding of a sequence of array elements in the two forms
`CBORDecoder::u8` accepts: `(v, false)` is the single-byte form (the value
itself, below `0x18`), `(v, true)` the two-byte `0x18 v` form. -/
def encodeSuites : List (Nat × Bool) → List Nat
  | [] => []
  | (v, false) :: rest => v :: encodeSuites rest
  | (v, true) :: rest => 0x18 :: v :: encodeSuites rest

/-!
## Cursor behaviour of the CBOR decoder (C2)
-/

namespace CBORDecoder

theorem read_pos_le (d : CBORDecoder) : d.pos ≤ (read d).2.pos := by
  unfold read
  cases h : d.buf[d.pos]? <;> simp

theorem read_slice_pos_le (d : CBORDecoder) (n : Nat) :
    d.pos ≤ (read_slice d n).2.pos := by
  unfold read_slice
  split <;> simp

theorem as_usize_pos_le (d : CBORDecoder) (b : Nat) :
    d.pos ≤ (as_usize d b).2.pos := by
  unfold as_usize
  split
  · simp
  · split
    · exact read_pos_le d
    · simp

theorem u8_pos_le (d : CBORDecoder) : d.pos ≤ (u8 d).2.pos := by
  unfold u8
  rcases hr : read d with ⟨res, d1⟩
  have h1 : d.pos ≤ d1.pos := by simpa [hr] using read_pos_le d
  cases res with
  | ok n =>
    simp only
    split
    · exact h1
    · split
      · exact le_trans h1 (read_pos_le d1)
      · exact h1
  | error e => exact h1

theorem i8_pos_le (d : CBORDecoder) : d.pos ≤ (i8 d).2.pos := by
  unfold i8
  rcases hr : read d with ⟨res, d1⟩
  have h1 : d.pos ≤ d1.pos := by simpa [hr] using read_pos_le d
  cases res with
  | ok n =>
    simp only
    split
    · exact h1
    · split
      · exact h1
      · split
        · rcases hr2 : read d1 with ⟨res2, d2⟩
          have h2 : d1.pos ≤ d2.pos := by simpa [hr2] using read_pos_le d1
          cases res2 <;> exact le_trans h1 h2
        · split
          · rcases hr2 : read d1 with ⟨res2, d2⟩
            have h2 : d1.pos ≤ d2.pos := by simpa [hr2] using read_pos_le d1
            cases res2 <;> exact le_trans h1 h2
          · exact h1
  | error e => exact h1

theorem int_raw_pos_le (d : CBORDecoder) : d.pos ≤ (int_raw d).2.pos := by
  unfold int_raw
  rcases hr : read d with ⟨res, d1⟩
  have h1 : d.pos ≤ d1.pos := by simpa [hr] using read_pos_le d
  cases res with
  | ok n =>
    simp only
    split <;> exact h1
  | error e => exact h1

theorem str_pos_le (d : CBORDecoder) : d.pos ≤ (str d).2.pos := by
  unfold str
  rcases hr : read d with ⟨res, d1⟩
  have h1 : d.pos ≤ d1.pos := by simpa [hr] using read_pos_le d
  cases res with
  | ok b =>
    simp only
    split
    · exact h1
    · rcases hu : as_usize d1 (info_of b) with ⟨res2, d2⟩
      have h2 : d1.pos ≤ d2.pos := by simpa [hu] using as_usize_pos_le d1 (info_of b)
      cases res2 with
      | ok n => exact le_trans h1 (le_trans h2 (read_slice_pos_le d2 n))
      | error e => exact le_trans h1 h2
  | error e => exact h1

theorem bytes_pos_le (d : CBORDecoder) : d.pos ≤ (bytes d).2.pos := by
  unfold bytes
  rcases hr : read d with ⟨res, d1⟩
  have h1 : d.pos ≤ d1.pos := by simpa [hr] using read_pos_le d
  cases res with
  | ok b =>
    simp only
    split
    · exact h1
    · rcases hu : as_usize d1 (info_of b) with ⟨res2, d2⟩
      have h2 : d1.pos ≤ d2.pos := by simpa [hu] using as_usize_pos_le d1 (info_of b)
      cases res2 with
      | ok n => exact le_trans h1 (le_trans h2 (read_slice_pos_le d2 n))
      | error e => exact le_trans h1 h2
  | error e => exact h1

theorem bytes_sized_pos_le (d : CBORDecoder) (n : Nat) :
    d.pos ≤ (bytes_sized d n).2.pos := by
  unfold bytes_sized
  rcases hb : bytes d with ⟨res, d1⟩
  have h1 : d.pos ≤ d1.pos := by simpa [hb] using bytes_pos_le d
  cases res with
  | ok xs =>
    simp only
    split <;> exact h1
  | error e => exact h1

theorem array_pos_le (d : CBORDecoder) : d.pos ≤ (array d).2.pos := by
  unfold array
  rcases hr : read d with ⟨res, d1⟩
  have h1 : d.pos ≤ d1.pos := by simpa [hr] using read_pos_le d
  cases res with
  | ok b =>
    simp only
    split
    · exact h1
    · split
      · exact h1
      · exact le_trans h1 (as_usize_pos_le d1 (info_of b))
  | error e => exact h1

end CBORDecoder

/-- C2 (counterexample): the claim "the decoder's position after a failing
call equals the position before" is false: `u8` on the one-byte input `[0x18]`
fails, yet the cursor has advanced from 0 to 1 (the `0x18` head byte was
consumed before the missing argument byte was detected). -/
theorem u8_error_moves_cursor_cex :
    CBORDecoder.u8 ⟨[0x18], 0⟩ = (.error .DecodingError, ⟨[0x18], 1⟩) ∧
      (CBORDecoder.u8 ⟨[0x18], 0⟩).2.pos ≠ 0 :=
  ⟨rfl, by decide⟩

/-- C2 (amended): for every decoder operation (`u8`, `i8`, `int_raw`, `str`,
`bytes`, `bytes_sized`, `array`) and every input and starting position, a
failing call never moves the cursor backwards — it leaves it at or after the
starting position (it may have consumed head bytes before detecting the
failure). -/
theorem decoder_error_never_retreats :
    ∀ d : CBORDecoder,
      (∀ e d', CBORDecoder.u8 d = (.error e, d') → d.pos ≤ d'.pos) ∧
      (∀ e d', CBORDecoder.i8 d = (.error e, d') → d.pos ≤ d'.pos) ∧
      (∀ e d', CBORDecoder.int_raw d = (.error e, d') → d.pos ≤ d'.pos) ∧
      (∀ e d', CBORDecoder.str d = (.error e, d') → d.pos ≤ d'.pos) ∧
      (∀ e d', CBORDecoder.bytes d = (.error e, d') → d.pos ≤ d'.pos) ∧
      (∀ n e d', CBORDecoder.bytes_sized d n = (.error e, d') → d.pos ≤ d'.pos) ∧
      (∀ e d', CBORDecoder.array d = (.error e, d') → d.pos ≤ d'.pos) := by
  intro d
  refine ⟨?_, ?_, ?_, ?_, ?_, ?_, ?_⟩
  · intro e d' h
    simpa [h] using CBORDecoder.u8_pos_le d
  · intro e d' h
    simpa [h] using CBORDecoder.i8_pos_le d
  · intro e d' h
    simpa [h] using CBORDecoder.int_raw_pos_le d
  · intro e d' h
    simpa [h] using CBORDecoder.str_pos_le d
  · intro e d' h
    simpa [h] using CBORDecoder.bytes_pos_le d
  · intro n e d' h
    simpa [h] using CBORDecoder.bytes_sized_pos_le d n
  · intro e d' h
    simpa [h] using CBORDecoder.array_pos_le d

/-- C2 (witness): the amended statement at the concrete failing `u8` call on
`[0x18]`. -/
theorem decoder_error_never_retreats_witness :
    (0 : Nat) ≤ 1 :=
  (decoder_error_never_retreats ⟨[0x18], 0⟩).1 .DecodingError ⟨[0x18], 1⟩ rfl

/-!
## Connection identifiers (C3)
-/

/-- C3: `generate_connection_identifier` only ever returns a value in
`[-24, 23]`, and the CBOR encoding arm emits one byte: `c` verbatim for
`c ∈ [0, 23]`, `0x1F + (-c)` for `c ∈ [-24, -1]`, and the `0` sentinel for
any out-of-range argument; the composed
`generate_connection_identifier_cbor` hence always yields a single byte. -/
theorem connection_identifier_range_and_encoding :
    (∀ stream c, generate_connection_identifier stream = some c →
      -24 ≤ c ∧ c ≤ 23) ∧
    (∀ c : Int,
      (0 ≤ c ∧ c ≤ 23 → connection_identifier_to_cbor c = c.toNat) ∧
      (-24 ≤ c ∧ c ≤ -1 → connection_identifier_to_cbor c = 0x1F + c.natAbs) ∧
      (c < -24 ∨ 23 < c → connection_identifier_to_cbor c = 0)) ∧
    (∀ stream b, generate_connection_identifier_cbor stream = some b →
      b < 256) := by
  have hrange : ∀ stream c, generate_connection_identifier stream = some c →
      -24 ≤ c ∧ c ≤ 23 := by
    intro stream
    induction stream with
    | nil => intro c h; simp [generate_connection_identifier] at h
    | cons b rest ih =>
      intro c h
      rw [generate_connection_identifier] at h
      split at h
      · exact ih c h
      · rename_i hcond
        push_neg at hcond
        obtain ⟨h1, h2⟩ := hcond
        cases h
        exact ⟨by omega, by omega⟩
  refine ⟨hrange, ?_, ?_⟩
  · intro c
    refine ⟨?_, ?_, ?_⟩
    · intro hc
      simp [connection_identifier_to_cbor, hc]
    · intro hc
      have : ¬(0 ≤ c ∧ c ≤ 23) := by omega
      simp only [connection_identifier_to_cbor, if_neg this]
      have : c < 0 ∧ -24 ≤ c := by omega
      rw [if_pos this]
      rfl
    · intro hc
      have h1 : ¬(0 ≤ c ∧ c ≤ 23) := by omega
      have h2 : ¬(c < 0 ∧ -24 ≤ c) := by omega
      simp [connection_identifier_to_cbor, h1, h2]
  · intro stream b h
    rw [generate_connection_identifier_cbor] at h
    rcases hg : generate_connection_identifier stream with _ | c
    · rw [hg] at h
      simp at h
    · rw [hg] at h
      simp only [Option.map_some'] at h
      obtain ⟨hlo, hhi⟩ := hrange stream c hg
      cases h
      rw [connection_identifier_to_cbor]
      split
      · omega
      · split
        · have h24 : c.natAbs ≤ 24 := by omega
          have h32 : CBOR_NEG_INT_1BYTE_START = 32 := rfl
          omega
        · omega

/-- C3 (witness): on the random stream `[200, 5]` the first draw (`-56` as a
signed byte) is rejected and the second accepted, giving identifier 5 in
range, encoded verbatim. -/
theorem connection_identifier_range_witness :
    (-24 ≤ (5 : Int) ∧ (5 : Int) ≤ 23) ∧ (5 : Nat) < 256 :=
  ⟨connection_identifier_range_and_encoding.1 [200, 5] 5 (by decide),
   connection_identifier_range_and_encoding.2.2 [200, 5] 5 (by decide)⟩

/-!
## Credential resolution policy (C4, C5)
-/

/-- C4: with an expected credential supplied, `credential_check_or_fetch`
returns `Ok(expected)` exactly when the received reference-only credential's
kid matches (respectively, when the received full credential's bytes match),
and returns `UnknownPeer` on any mismatch. -/
theorem credential_check_or_fetch_expected_spec :
    ∀ expected received : CredentialRPK,
      (received.reference_only = true →
        (credential_check_or_fetch (some expected) received = .ok expected ↔
          received.kid = expected.kid)) ∧
      (received.reference_only = false →
        (credential_check_or_fetch (some expected) received = .ok expected ↔
          received.value = expected.value)) ∧
      ((if received.reference_only then received.kid ≠ expected.kid
        else received.value ≠ expected.value) →
        credential_check_or_fetch (some expected) received = .err .UnknownPeer) := by
  intro expected received
  rcases hro : received.reference_only with _ | _
  · refine ⟨by intro h; exact absurd h (by decide), ?_, ?_⟩
    · intro _
      rw [credential_check_or_fetch]
      simp only [hro, Bool.false_eq_true, if_false]
      split
      · rename_i hv; simp [hv]
      · rename_i hv; simp [hv]
    · intro hne
      rw [if_neg (by simp [hro]) ] at hne
      rw [credential_check_or_fetch]
      simp only [hro, Bool.false_eq_true, if_false]
      rw [if_neg hne]
  · refine ⟨?_, by intro h; exact absurd h (by decide), ?_⟩
    · intro _
      rw [credential_check_or_fetch]
      simp only [hro, if_true]
      split
      · rename_i hv; simp [hv]
      · rename_i hv; simp [hv]
    · intro hne
      rw [if_pos (by simp [hro])] at hne
      rw [credential_check_or_fetch]
      simp only [hro, if_true]
      rw [if_neg hne]

/-- C4 (witness): a reference-only received identifier whose kid matches the
expected credential's resolves to the expected credential. -/
theorem credential_check_or_fetch_expected_witness :
    credential_check_or_fetch (some ⟨[0xA1, 0x02], 0x0A, List.replicate 32 0, false⟩)
      ⟨[], 0x0A, [], true⟩ = .ok ⟨[0xA1, 0x02], 0x0A, List.replicate 32 0, false⟩ :=
  ((credential_check_or_fetch_expected_spec
      ⟨[0xA1, 0x02], 0x0A, List.replicate 32 0, false⟩ ⟨[], 0x0A, [], true⟩).1 rfl).mpr rfl

/-- C5 (counterexample): with no expected credential, a reference-only
received identifier does not produce the `UnknownPeer` error the claim
promises — the function hits its `assert!(!id_cred_received.reference_only())`
and panics. -/
theorem credential_check_or_fetch_none_panics_cex :
    credential_check_or_fetch none ⟨[], 0x0A, [], true⟩ = .panic ∧
      credential_check_or_fetch none ⟨[], 0x0A, [], true⟩ ≠ .err .UnknownPeer := by
  decide

/-- C5 (amended): with no expected credential, a full received credential is
returned unchanged; a reference-only one makes the function's assertion fail
(a panic), rather than returning an `UnknownPeer` error. -/
theorem credential_check_or_fetch_none_spec :
    ∀ received : CredentialRPK,
      (received.reference_only = false →
        credential_check_or_fetch none received = .ok received) ∧
      (received.reference_only = true →
        credential_check_or_fetch none received = .panic) := by
  intro received
  constructor
  · intro h
    rw [credential_check_or_fetch, h]
    rfl
  · intro h
    rw [credential_check_or_fetch, h]
    rfl

/-- C5 (witness): the amended statement at a concrete full credential and a
concrete reference-only credential. -/
theorem credential_check_or_fetch_none_spec_witness :
    credential_check_or_fetch none ⟨[0xA1], 1, [], false⟩ = .ok ⟨[0xA1], 1, [], false⟩ ∧
      credential_check_or_fetch none ⟨[], 2, [], true⟩ = .panic :=
  ⟨(credential_check_or_fetch_none_spec ⟨[0xA1], 1, [], false⟩).1 rfl,
   (credential_check_or_fetch_none_spec ⟨[], 2, [], true⟩).2 rfl⟩

/-!
## The `i8` 0x38 arm (C9)
-/

/-- C9 (code bug): on the two-byte input `[0x38, 0x00]` — the CBOR one-byte
negative-integer form, whose value is `-1 - 0 = -1` — the decoder's `i8`
returns `31`: the source computes `-1 - (self.read()? - 0x20) as i8`,
subtracting `0x20` from the argument byte (wrapping in release builds;
panicking on underflow in debug builds) instead of using it directly. -/
theorem i8_0x38_wrong_value :
    (CBORDecoder.i8 ⟨[0x38, 0x00], 0⟩).1 = .ok 31 ∧
      ((31 : Int) ≠ -1 - 0) :=
  ⟨rfl, by decide⟩

/-!
## Symbolic-evaluation lemmas for the decoder

Each lemma describes one decoder operation on a buffer whose not-yet-consumed
suffix (`buf.drop p`) has a known shape.
-/

namespace CBORDecoder

theorem getElem?_of_drop {buf : List Nat} {p b : Nat} {rest : List Nat}
    (h : buf.drop p = b :: rest) : buf[p]? = some b := by
  have h0 := List.getElem?_drop buf p 0
  rw [h] at h0
  simpa using h0.symm

theorem pos_lt_of_drop_cons {buf : List Nat} {p b : Nat} {rest : List Nat}
    (h : buf.drop p = b :: rest) : p < buf.length := by
  by_contra hc
  rw [List.drop_eq_nil_of_le (by omega)] at h
  exact List.noConfusion h

theorem drop_succ_of_drop_cons {buf : List Nat} {p b : Nat} {rest : List Nat}
    (h : buf.drop p = b :: rest) : buf.drop (p + 1) = rest := by
  rw [← List.drop_drop, h]
  rfl

theorem drop_shift_of_drop_append {buf : List Nat} {p : Nat} {xs rest : List Nat}
    (h : buf.drop p = xs ++ rest) : buf.drop (p + xs.length) = rest := by
  rw [← List.drop_drop, h, List.drop_left]

theorem read_view {buf : List Nat} {p b : Nat} {rest : List Nat}
    (h : buf.drop p = b :: rest) :
    read ⟨buf, p⟩ = (.ok b, ⟨buf, p + 1⟩) := by
  unfold read
  rw [show (⟨buf, p⟩ : CBORDecoder).buf[(⟨buf, p⟩ : CBORDecoder).pos]? = some b from
    getElem?_of_drop h]

theorem current_view {buf : List Nat} {p b : Nat} {rest : List Nat}
    (h : buf.drop p = b :: rest) :
    current ⟨buf, p⟩ = .ok b := by
  unfold current
  rw [show (⟨buf, p⟩ : CBORDecoder).buf[(⟨buf, p⟩ : CBORDecoder).pos]? = some b from
    getElem?_of_drop h]

theorem read_slice_view {buf : List Nat} {p : Nat} {xs rest : List Nat}
    (h : buf.drop p = xs ++ rest) (hp : p ≤ buf.length) :
    read_slice ⟨buf, p⟩ xs.length = (.ok xs, ⟨buf, p + xs.length⟩) := by
  have hlen : (buf.drop p).length = buf.length - p := List.length_drop ..
  rw [h, List.length_append] at hlen
  unfold read_slice
  rw [if_pos (by simp only; omega)]
  simp only [h, List.take_left]

theorem finished_view {buf : List Nat} {p : Nat}
    (h : buf.drop p = []) (hp : p ≤ buf.length) :
    finished ⟨buf, p⟩ = true := by
  have hlen : (buf.drop p).length = buf.length - p := List.length_drop ..
  rw [h] at hlen
  simp only [List.length_nil] at hlen
  unfold finished
  simp only [beq_iff_eq]
  omega

theorem u8_single_view {buf : List Nat} {p b : Nat} {rest : List Nat}
    (h : buf.drop p = b :: rest) (hb : b ≤ 0x17) :
    u8 ⟨buf, p⟩ = (.ok b, ⟨buf, p + 1⟩) := by
  unfold u8
  simp only [read_view h]
  rw [if_pos hb]

theorem u8_long_view {buf : List Nat} {p v : Nat} {rest : List Nat}
    (h : buf.drop p = 0x18 :: v :: rest) :
    u8 ⟨buf, p⟩ = (.ok v, ⟨buf, p + 1 + 1⟩) := by
  unfold u8
  simp only [read_view h]
  rw [if_neg (by omega)]
  rw [if_pos trivial]
  exact read_view (drop_succ_of_drop_cons h)

theorem int_raw_view {buf : List Nat} {p b : Nat} {rest : List Nat}
    (h : buf.drop p = b :: rest) (hb : b ≤ 0x17 ∨ (0x20 ≤ b ∧ b ≤ 0x37)) :
    int_raw ⟨buf, p⟩ = (.ok b, ⟨buf, p + 1⟩) := by
  unfold int_raw
  simp only [read_view h]
  rw [if_pos hb]

theorem type_of_small {b : Nat} (hb : b ≤ 0x17) : type_of b = 0 := by
  interval_cases b <;> decide

theorem type_of_neg_int {b : Nat} (h1 : 0x20 ≤ b) (h2 : b ≤ 0x37) :
    type_of b = 0x20 := by
  interval_cases b <;> decide

theorem type_of_add_0x40 {n : Nat} (h : n ≤ 31) : type_of (0x40 + n) = 0x40 := by
  interval_cases n <;> decide

theorem info_of_add_0x40 {n : Nat} (h : n ≤ 31) : info_of (0x40 + n) = n := by
  interval_cases n <;> decide

theorem type_of_add_0x80 {n : Nat} (h : n ≤ 31) : type_of (0x80 + n) = 0x80 := by
  interval_cases n <;> decide

theorem info_of_add_0x80 {n : Nat} (h : n ≤ 31) : info_of (0x80 + n) = n := by
  interval_cases n <;> decide

theorem bytes_short_view {buf : List Nat} {p n : Nat} {xs rest : List Nat}
    (h : buf.drop p = (0x40 + n) :: (xs ++ rest)) (hn : xs.length = n)
    (h23 : n ≤ 23) :
    bytes ⟨buf, p⟩ = (.ok xs, ⟨buf, p + 1 + n⟩) := by
  have hlt := pos_lt_of_drop_cons h
  have hdrop1 : buf.drop (p + 1) = xs ++ rest := drop_succ_of_drop_cons h
  unfold bytes
  simp only [read_view h]
  rw [if_neg (by
    rw [type_of_add_0x40 (by omega), info_of_add_0x40 (by omega)]
    simp [CBOR_MAJOR_BYTE_STRING]
    omega)]
  rw [info_of_add_0x40 (by omega)]
  unfold as_usize
  rw [if_pos h23]
  simp only [← hn, read_slice_view hdrop1 (by omega)]

theorem bytes_long_view {buf : List Nat} {p n : Nat} {xs rest : List Nat}
    (h : buf.drop p = 0x58 :: n :: (xs ++ rest)) (hn : xs.length = n) :
    bytes ⟨buf, p⟩ = (.ok xs, ⟨buf, p + 2 + n⟩) := by
  have hlt := pos_lt_of_drop_cons h
  have hdrop1 : buf.drop (p + 1) = n :: (xs ++ rest) := drop_succ_of_drop_cons h
  have hlt1 := pos_lt_of_drop_cons hdrop1
  have hdrop2 : buf.drop (p + 1 + 1) = xs ++ rest := drop_succ_of_drop_cons hdrop1
  unfold bytes
  simp only [read_view h]
  rw [if_neg (by decide)]
  rw [show info_of 0x58 = 24 from rfl]
  unfold as_usize
  rw [if_neg (by omega), if_pos rfl]
  simp only [read_view hdrop1]
  simp only [← hn, read_slice_view hdrop2 (by omega)]

theorem bytes_sized_short_view {buf : List Nat} {p n : Nat} {xs rest : List Nat}
    (h : buf.drop p = (0x40 + n) :: (xs ++ rest)) (hn : xs.length = n)
    (h23 : n ≤ 23) :
    bytes_sized ⟨buf, p⟩ n = (.ok xs, ⟨buf, p + 1 + n⟩) := by
  unfold bytes_sized
  simp only [bytes_short_view h hn h23]
  rw [if_pos hn]

theorem array_short_view {buf : List Nat} {p n : Nat} {rest : List Nat}
    (h : buf.drop p = (0x80 + n) :: rest) (h23 : n ≤ 23) :
    array ⟨buf, p⟩ = (.ok n, ⟨buf, p + 1⟩) := by
  unfold array
  simp only [read_view h]
  rw [if_neg (by rw [type_of_add_0x80 (by omega)]; simp [CBOR_MAJOR_ARRAY])]
  rw [if_neg (by rw [info_of_add_0x80 (by omega)]; omega)]
  rw [info_of_add_0x80 (by omega)]
  unfold as_usize
  rw [if_pos h23]

theorem array_long_view {buf : List Nat} {p m : Nat} {rest : List Nat}
    (h : buf.drop p = 0x98 :: m :: rest) :
    array ⟨buf, p⟩ = (.ok m, ⟨buf, p + 1 + 1⟩) := by
  have hdrop1 : buf.drop (p + 1) = m :: rest := drop_succ_of_drop_cons h
  unfold array
  simp only [read_view h]
  rw [if_neg (by decide)]
  rw [if_neg (by decide)]
  rw [show info_of 0x98 = 24 from rfl]
  unfold as_usize
  rw [if_neg (by omega), if_pos rfl]
  exact read_view hdrop1

theorem int_raw_invalid_view {buf : List Nat} {p b : Nat} {rest : List Nat}
    (h : buf.drop p = b :: rest) (hb : ¬(b ≤ 0x17 ∨ (0x20 ≤ b ∧ b ≤ 0x37))) :
    int_raw ⟨buf, p⟩ = (.error .DecodingError, ⟨buf, p + 1⟩) := by
  unfold int_raw
  simp only [read_view h]
  rw [if_neg hb]

end CBORDecoder

theorem set_append_length_left (l₁ l₂ : List Nat) (a : Nat) :
    (l₁ ++ l₂).set l₁.length a = l₁ ++ l₂.set 0 a := by
  induction l₁ with
  | nil => rfl
  | cons x xs ih =>
    show x :: ((xs ++ l₂).set xs.length a) = x :: (xs ++ l₂.set 0 a)
    rw [ih]

theorem setSeq_prefix (elems : List Nat) :
    ∀ (front : List Nat) (back : Nat),
      setSeq (front ++ List.replicate (elems.length + back) 0) front.length elems =
        front ++ (elems ++ List.replicate back 0) := by
  induction elems with
  | nil =>
    intro front back
    simp [setSeq]
  | cons e es ih =>
    intro front back
    rw [setSeq]
    have h1 : (e :: es).length + back = (es.length + back) + 1 := by
      simp only [List.length_cons]
      omega
    rw [h1, List.replicate_succ, set_append_length_left]
    have h2 : List.set ((0 : Nat) :: List.replicate (es.length + back) 0) 0 e =
        e :: List.replicate (es.length + back) 0 := rfl
    rw [h2]
    have h3 : front ++ e :: List.replicate (es.length + back) 0 =
        (front ++ [e]) ++ List.replicate (es.length + back) 0 := by simp
    rw [h3]
    have h4 : front.length + 1 = (front ++ [e]).length := by simp
    rw [h4, ih (front ++ [e]) back]
    simp

theorem readSuitesLoop_view (elems : List Nat) :
    ∀ (buf : List Nat) (p i : Nat) (acc rest : List Nat),
      buf.drop p = elems ++ rest → (∀ e ∈ elems, e ≤ 0x17) →
      readSuitesLoop elems.length i acc ⟨buf, p⟩ =
        .ok (setSeq acc i elems, ⟨buf, p + elems.length⟩) := by
  induction elems with
  | nil =>
    intro buf p i acc rest h hall
    simp [readSuitesLoop, setSeq]
  | cons e es ih =>
    intro buf p i acc rest h hall
    have hd : buf.drop p = e :: (es ++ rest) := h
    rw [show (e :: es).length = es.length + 1 from rfl, readSuitesLoop]
    simp only [CBORDecoder.u8_single_view hd (hall e (by simp))]
    rw [ih buf (p + 1) (i + 1) (acc.set i e) rest
      (CBORDecoder.drop_succ_of_drop_cons hd) (fun x hx => hall x (by simp [hx]))]
    rw [setSeq]
    have harith : p + 1 + es.length = p + (es.length + 1) := by omega
    rw [harith]

theorem readSuitesLoop_view_items (items : List (Nat × Bool)) :
    ∀ (buf : List Nat) (p i : Nat) (acc rest : List Nat),
      buf.drop p = encodeSuites items ++ rest →
      (∀ q ∈ items, q.2 = false → q.1 ≤ 0x17) →
      readSuitesLoop items.length i acc ⟨buf, p⟩ =
        .ok (setSeq acc i (items.map Prod.fst),
          ⟨buf, p + (encodeSuites items).length⟩) := by
  induction items with
  | nil =>
    intro buf p i acc rest h hall
    simp [readSuitesLoop, setSeq, encodeSuites]
  | cons q qs ih =>
    intro buf p i acc rest h hall
    obtain ⟨v, b⟩ := q
    cases b with
    | false =>
      have hd : buf.drop p = v :: (encodeSuites qs ++ rest) := by
        rw [h]
        rfl
      rw [show ((v, false) :: qs).length = qs.length + 1 from rfl, readSuitesLoop]
      simp only [CBORDecoder.u8_single_view hd (hall (v, false) (by simp) rfl)]
      rw [ih buf (p + 1) (i + 1) (acc.set i v) rest
        (CBORDecoder.drop_succ_of_drop_cons hd)
        (fun x hx hb => hall x (by simp [hx]) hb)]
      rw [show ((v, false) :: qs).map Prod.fst = v :: qs.map Prod.fst from rfl,
        setSeq]
      rw [show encodeSuites ((v, false) :: qs) = v :: encodeSuites qs from rfl]
      rw [show p + 1 + (encodeSuites qs).length =
        p + (v :: encodeSuites qs).length from by
          simp only [List.length_cons]
          omega]
    | true =>
      have hd : buf.drop p = 0x18 :: v :: (encodeSuites qs ++ rest) := by
        rw [h]
        rfl
      rw [show ((v, true) :: qs).length = qs.length + 1 from rfl, readSuitesLoop]
      simp only [CBORDecoder.u8_long_view hd]
      rw [ih buf (p + 1 + 1) (i + 1) (acc.set i v) rest
        (CBORDecoder.drop_succ_of_drop_cons (CBORDecoder.drop_succ_of_drop_cons hd))
        (fun x hx hb => hall x (by simp [hx]) hb)]
      rw [show ((v, true) :: qs).map Prod.fst = v :: qs.map Prod.fst from rfl,
        setSeq]
      rw [show encodeSuites ((v, true) :: qs) = 0x18 :: v :: encodeSuites qs from rfl]
      rw [show p + 1 + 1 + (encodeSuites qs).length =
        p + (0x18 :: v :: encodeSuites qs).length from by
          simp only [List.length_cons]
          omega]

/-!
## EAD parsing (C6)
-/

/-- C6 (counterexample): on the tail `[0x20]` — the CBOR negative integer
`-1`, head byte `0x20` — `parse_ead` yields label 1, not the head byte minus
`0x20` (which is 0) the claim asks for. -/
theorem parse_ead_neg_label_cex :
    parse_ead [0x20] = some (.ok (some ⟨1, true, none⟩)) ∧
      (1 : Nat) ≠ 0x20 - 0x20 :=
  ⟨rfl, by decide⟩

/-- C6 (amended): `parse_ead` classifies the first byte: a single-byte CBOR
unsigned integer `n ∈ [0, 0x17]` gives label `n`, non-critical; a single-byte
CBOR negative integer head `b ∈ [0x20, 0x37]` (value `v = -(b - 0x20) - 1`)
gives a critical item with label `b - 0x1F = -v` (one more than
`b - 0x20`); any other first byte is a `ParsingError`. -/
theorem parse_ead_classification :
    ∀ (b : Nat) (tail : List Nat), tail.length ≤ MAX_MESSAGE_SIZE_LEN →
      (b ≤ 0x17 →
        parse_ead (b :: tail) =
          some (.ok (some ⟨b, false, if 0 < tail.length then some tail else none⟩))) ∧
      (0x20 ≤ b ∧ b ≤ 0x37 →
        parse_ead (b :: tail) =
          some (.ok (some ⟨b - 0x1F, true, if 0 < tail.length then some tail else none⟩))) ∧
      (0x17 < b ∧ ¬(0x20 ≤ b ∧ b ≤ 0x37) →
        parse_ead (b :: tail) = some (.error .ParsingError)) := by
  intro b tail htail
  refine ⟨?_, ?_, ?_⟩
  · intro hb
    cases tail with
    | nil => simp [parse_ead, CBORDecoder.is_u8, hb]
    | cons t ts =>
      have htail' : ts.length + 1 ≤ MAX_MESSAGE_SIZE_LEN := by simpa using htail
      simp [parse_ead, CBORDecoder.is_u8, hb, htail']
  · rintro ⟨hb1, hb2⟩
    have hnu : ¬ b ≤ 0x17 := by omega
    cases tail with
    | nil =>
      simp [parse_ead, CBORDecoder.is_u8, CBORDecoder.is_i8, hnu, hb1, hb2,
        CBOR_NEG_INT_1BYTE_START]
    | cons t ts =>
      have htail' : ts.length + 1 ≤ MAX_MESSAGE_SIZE_LEN := by simpa using htail
      simp [parse_ead, CBORDecoder.is_u8, CBORDecoder.is_i8, hnu, hb1, hb2, htail',
        CBOR_NEG_INT_1BYTE_START]
  · rintro ⟨hb1, hb2⟩
    have hnu : ¬ b ≤ 0x17 := by omega
    simp [parse_ead, CBORDecoder.is_u8, CBORDecoder.is_i8, hnu, hb2]

/-- C6 (witness): the amended statement at the critical item `[0x21, 0xAA]`
(head `0x21`, value `-2` on the wire, label 2) and implicitly at its
hypotheses. -/
theorem parse_ead_classification_witness :
    parse_ead [0x21, 0xAA] = some (.ok (some ⟨2, true, some [0xAA]⟩)) := by
  have h := (parse_ead_classification 0x21 [0xAA] (by decide)).2.1 (by decide)
  simpa using h

/-- Decoding a PLAINTEXT_2 of the shape `C_R (int), kid (int), bstr8(MAC_2)`:
the compact-kid well-formed case. -/
theorem decode_plaintext_2_kid_view (c_r kid : Nat) (mac : List Nat)
    (hcr : c_r ≤ 0x17 ∨ (0x20 ≤ c_r ∧ c_r ≤ 0x37))
    (hkid : kid ≤ 0x17 ∨ (0x20 ≤ kid ∧ kid ≤ 0x37))
    (hmac : mac.length = MAC_LENGTH) :
    decode_plaintext_2 (c_r :: kid :: 0x48 :: mac) =
      some (.ok (c_r, .CompactKid kid, mac, none)) := by
  have hmac8 : mac.length = 8 := hmac
  set B := c_r :: kid :: 0x48 :: mac with hB
  have hD0 : B.drop 0 = c_r :: (kid :: 0x48 :: mac) := rfl
  have hD1 : B.drop (0 + 1) = kid :: (0x48 :: mac) :=
    CBORDecoder.drop_succ_of_drop_cons hD0
  have hD2 : B.drop (0 + 1 + 1) = 0x48 :: mac :=
    CBORDecoder.drop_succ_of_drop_cons hD1
  have hD2' : B.drop (0 + 1 + 1) = (0x40 + MAC_LENGTH) :: (mac ++ []) := by
    rw [hD2]
    simp [MAC_LENGTH]
  have hD3 : B.drop (0 + 1 + 1 + 1) = mac ++ [] := by
    have h := CBORDecoder.drop_succ_of_drop_cons hD2
    rw [h]
    simp
  have hD4 : B.drop (0 + 1 + 1 + 1 + MAC_LENGTH) = [] := by
    have h := CBORDecoder.drop_shift_of_drop_append hD3
    rwa [hmac] at h
  have hBlen : B.length = 11 := by
    simp only [hB, List.length_cons, hmac8]
  rw [decode_plaintext_2]
  simp only [CBORDecoder.new]
  simp only [CBORDecoder.int_raw_view hD0 hcr]
  simp only [CBORDecoder.current_view hD1]
  rw [if_neg (by
    rcases hkid with h | h
    · rw [CBORDecoder.type_of_small h]
      simp [CBOR_MAJOR_BYTE_STRING]
    · rw [CBORDecoder.type_of_neg_int h.1 h.2]
      simp [CBOR_MAJOR_BYTE_STRING])]
  simp only [CBORDecoder.int_raw_view hD1 hkid]
  simp only [CBORDecoder.bytes_sized_short_view (n := MAC_LENGTH) hD2'
    (by simpa using hmac) (by decide)]
  rw [if_neg (by simp only [CBORDecoder.position, hBlen, MAC_LENGTH]; omega)]
  rw [CBORDecoder.finished_view hD4 (by simp only [hBlen, MAC_LENGTH]; omega)]
  simp

/-- Decoding a PLAINTEXT_3 of the shape `kid (int), bstr8(MAC_3)`. -/
theorem decode_plaintext_3_kid_view (kid : Nat) (mac : List Nat)
    (hkid : kid ≤ 0x17 ∨ (0x20 ≤ kid ∧ kid ≤ 0x37))
    (hmac : mac.length = MAC_LENGTH) :
    decode_plaintext_3 (kid :: 0x48 :: mac) =
      some (.ok (.CompactKid kid, mac, none)) := by
  have hmac8 : mac.length = 8 := hmac
  set B := kid :: 0x48 :: mac with hB
  have hD0 : B.drop 0 = kid :: (0x48 :: mac) := rfl
  have hD1 : B.drop (0 + 1) = 0x48 :: mac :=
    CBORDecoder.drop_succ_of_drop_cons hD0
  have hD1' : B.drop (0 + 1) = (0x40 + MAC_LENGTH) :: (mac ++ []) := by
    rw [hD1]
    simp [MAC_LENGTH]
  have hD2 : B.drop (0 + 1 + 1) = mac ++ [] := by
    have h := CBORDecoder.drop_succ_of_drop_cons hD1
    rw [h]
    simp
  have hD3 : B.drop (0 + 1 + 1 + MAC_LENGTH) = [] := by
    have h := CBORDecoder.drop_shift_of_drop_append hD2
    rwa [hmac] at h
  have hBlen : B.length = 10 := by
    simp only [hB, List.length_cons, hmac8]
  rw [decode_plaintext_3]
  simp only [CBORDecoder.new]
  simp only [CBORDecoder.current_view hD0]
  rw [if_neg (by
    rcases hkid with h | h
    · rw [CBORDecoder.type_of_small h]
      simp [CBOR_MAJOR_BYTE_STRING]
    · rw [CBORDecoder.type_of_neg_int h.1 h.2]
      simp [CBOR_MAJOR_BYTE_STRING])]
  simp only [CBORDecoder.int_raw_view hD0 hkid]
  simp only [CBORDecoder.bytes_sized_short_view (n := MAC_LENGTH) hD1'
    (by simpa using hmac) (by decide)]
  rw [if_neg (by simp only [CBORDecoder.position, hBlen, MAC_LENGTH]; omega)]
  rw [CBORDecoder.finished_view hD3 (by simp only [hBlen, MAC_LENGTH]; omega)]
  simp

/-- Evaluating `parse_suites_i` on a bare single-byte suite at any
position. -/
theorem parse_suites_i_single_view {buf : List Nat} {p s : Nat} {rest : List Nat}
    (h : buf.drop p = s :: rest) (hs : s ≤ 0x17) :
    parse_suites_i ⟨buf, p⟩ =
      .ok ((List.replicate SUITES_LEN 0).set 0 s, 1, ⟨buf, p + 1⟩) := by
  rw [parse_suites_i]
  simp only [CBORDecoder.current_view h]
  rw [if_pos (by rw [CBORDecoder.type_of_small hs])]
  simp only [CBORDecoder.u8_single_view h hs]

/-- `bytes_sized` on the `0x58 n` long form with the announced size. -/
theorem bytes_sized_long_view {buf : List Nat} {p n : Nat} {xs rest : List Nat}
    (h : buf.drop p = 0x58 :: n :: (xs ++ rest)) (hn : xs.length = n) :
    CBORDecoder.bytes_sized ⟨buf, p⟩ n = (.ok xs, ⟨buf, p + 2 + n⟩) := by
  unfold CBORDecoder.bytes_sized
  simp only [CBORDecoder.bytes_long_view h hn]
  rw [if_pos hn]

/-- Round trip of the message_1 wire format produced by the initiator
(method 3, single suite 2, `G_X` as a 32-byte bstr, single-byte `C_I`). -/
theorem parse_message_1_roundtrip (g_x : List Nat) (c_i : Nat)
    (hg : g_x.length = 32) (hc : c_i ≤ 0x17 ∨ (0x20 ≤ c_i ∧ c_i ≤ 0x37)) :
    parse_message_1 (3 :: 2 :: 0x58 :: 0x20 :: (g_x ++ [c_i])) =
      some (.ok (3, (List.replicate SUITES_LEN 0).set 0 2, 1, g_x, c_i, none)) := by
  set B := (3 : Nat) :: 2 :: 0x58 :: 0x20 :: (g_x ++ [c_i]) with hB
  have hD0 : B.drop 0 = 3 :: (2 :: 0x58 :: 0x20 :: (g_x ++ [c_i])) := rfl
  have hD1 : B.drop (0 + 1) = 2 :: (0x58 :: 0x20 :: (g_x ++ [c_i])) :=
    CBORDecoder.drop_succ_of_drop_cons hD0
  have hD2 : B.drop (0 + 1 + 1) = 0x58 :: 0x20 :: (g_x ++ [c_i]) :=
    CBORDecoder.drop_succ_of_drop_cons hD1
  have hD2' : B.drop (0 + 1 + 1) = 0x58 :: P256_ELEM_LEN :: (g_x ++ [c_i]) := hD2
  have hg' : g_x.length = P256_ELEM_LEN := hg
  have hD3 : B.drop (0 + 1 + 1 + 1) = 0x20 :: (g_x ++ [c_i]) :=
    CBORDecoder.drop_succ_of_drop_cons hD2
  have hD4 : B.drop (0 + 1 + 1 + 1 + 1) = g_x ++ [c_i] :=
    CBORDecoder.drop_succ_of_drop_cons hD3
  have hD5 : B.drop (0 + 1 + 1 + 2 + P256_ELEM_LEN) = [c_i] := by
    have h := CBORDecoder.drop_shift_of_drop_append hD4
    rw [hg] at h
    rwa [show 0 + 1 + 1 + 1 + 1 + 32 = 0 + 1 + 1 + 2 + P256_ELEM_LEN from by
      simp [P256_ELEM_LEN]] at h
  have hD5' : B.drop (0 + 1 + 1 + 2 + P256_ELEM_LEN) = c_i :: [] := hD5
  have hD6 : B.drop (0 + 1 + 1 + 2 + P256_ELEM_LEN + 1) = [] :=
    CBORDecoder.drop_succ_of_drop_cons hD5'
  have hBlen : B.length = 0 + 1 + 1 + 2 + P256_ELEM_LEN + 1 := by
    simp only [hB, List.length_cons, List.length_append, List.length_nil, hg,
      P256_ELEM_LEN]
  rw [parse_message_1]
  simp only [CBORDecoder.new]
  simp only [CBORDecoder.u8_single_view hD0 (by omega)]
  simp only [parse_suites_i_single_view hD1 (by omega)]
  simp only [bytes_sized_long_view hD2' hg']
  simp only [CBORDecoder.int_raw_view hD5' hc]
  rw [if_neg (by simp only [CBORDecoder.position, hBlen]; omega)]
  rw [CBORDecoder.finished_view hD6 (by simp only [hBlen]; omega)]
  simp

/-- Round trip of the message_2 wire format: one bstr holding
`G_Y (32 bytes) ‖ CIPHERTEXT_2 (11 bytes)`. -/
theorem parse_message_2_roundtrip (g_y ct : List Nat)
    (hg : g_y.length = 32) (hct : ct.length = 11) :
    parse_message_2 (0x58 :: 43 :: (g_y ++ ct)) = .ok (g_y, ct) := by
  set B := (0x58 : Nat) :: 43 :: (g_y ++ ct) with hB
  have hD0 : B.drop 0 = 0x58 :: 43 :: ((g_y ++ ct) ++ []) := by
    simp [hB]
  have hlen : (g_y ++ ct).length = 43 := by
    simp [hg, hct]
  have hD2 : B.drop (0 + 1 + 1) = (g_y ++ ct) ++ [] := by
    have h1 := CBORDecoder.drop_succ_of_drop_cons hD0
    exact CBORDecoder.drop_succ_of_drop_cons h1
  have hD3 : B.drop (0 + 2 + 43) = [] := by
    have h := CBORDecoder.drop_shift_of_drop_append hD2
    rw [hlen] at h
    rwa [show 0 + 1 + 1 + 43 = 0 + 2 + 43 from by omega] at h
  have hBlen : B.length = 45 := by
    simp only [hB, List.length_cons, hlen]
  rw [parse_message_2]
  simp only [CBORDecoder.new]
  simp only [CBORDecoder.bytes_long_view hD0 hlen]
  rw [CBORDecoder.finished_view hD3 (by simp only [hBlen]; omega)]
  rw [if_pos rfl]
  rw [if_pos (by simp only [hlen, P256_ELEM_LEN]; omega)]
  rw [if_pos (by
    simp only [List.length_drop, hlen, MAX_MESSAGE_SIZE_LEN, P256_ELEM_LEN]
    omega)]
  have hgP : g_y.length = P256_ELEM_LEN := hg
  simp only [List.take_left' hgP, List.drop_left' hgP]

/-- XOR with the same keystream twice gives back the plaintext. -/
theorem xorBytes_cancel (a : List Nat) :
    ∀ ks : List Nat, ks.length = a.length → xorBytes (xorBytes a ks) ks = a := by
  induction a with
  | nil =>
    intro ks h
    simp [xorBytes]
  | cons v vs ih =>
    intro ks h
    cases ks with
    | nil => simp at h
    | cons k kk =>
      simp only [xorBytes, List.zipWith_cons_cons]
      rw [Nat.xor_cancel_right]
      have hkk : kk.length = vs.length := by simpa using h
      have := ih kk hkk
      rw [show List.zipWith (· ^^^ ·) (List.zipWith (· ^^^ ·) vs kk) kk = vs from this]

/-- Length of the XOR of two equal-length byte lists. -/
theorem xorBytes_length (a b : List Nat) (h : b.length = a.length) :
    (xorBytes a b).length = a.length := by
  simp [xorBytes, h]

/-- Evaluating `i_prepare_message_1` on the fresh initiator state. -/
theorem i_prepare_message_1_eval (c : Crypto) (x g_x : List Nat) (c_i : Nat)
    (hg : g_x.length = 32) :
    i_prepare_message_1 c ⟨2 :: List.replicate 8 0, 1, x, g_x⟩ c_i =
      .ok (⟨x, c.sha256 (3 :: 2 :: 0x58 :: 0x20 :: (g_x ++ [c_i]))⟩,
        3 :: 2 :: 0x58 :: 0x20 :: (g_x ++ [c_i])) := by
  rw [i_prepare_message_1, encode_message_1]
  simp [bstr32, EDHOC_METHOD, MAX_MESSAGE_SIZE_LEN, hg]

/-- Evaluating `r_process_message_1` on the initiator's message_1. -/
theorem r_process_message_1_eval (c : Crypto) (y g_y g_x : List Nat) (c_i : Nat)
    (hg : g_x.length = 32) (hc : c_i ≤ 0x17 ∨ (0x20 ≤ c_i ∧ c_i ≤ 0x37)) :
    r_process_message_1 c ⟨y, g_y⟩ (3 :: 2 :: 0x58 :: 0x20 :: (g_x ++ [c_i])) =
      some (.ok (⟨y, g_y, c_i, g_x,
        c.sha256 (3 :: 2 :: 0x58 :: 0x20 :: (g_x ++ [c_i]))⟩, none)) := by
  rw [r_process_message_1]
  simp only [parse_message_1_roundtrip g_x c_i hg hc]
  rw [if_neg (by simp [EDHOC_METHOD])]
  rw [if_neg (by decide)]

/-- `encode_bstr` on a 32-byte key followed by an 11-byte ciphertext uses the
two-byte `0x58 43` head. -/
theorem encode_bstr_eval43 (a b : List Nat) (ha : a.length = 32)
    (hb : b.length = 11) :
    encode_bstr (a ++ b) = 0x58 :: 43 :: (a ++ b) := by
  rw [encode_bstr]
  rw [if_neg (by simp only [List.length_append, ha, hb]; omega)]
  simp only [List.length_append, ha, hb]

/-- Evaluating `r_prepare_message_2` (by-reference transfer), with the
message-2 framing and the keystream length already normalised. -/
theorem r_prepare_message_2_eval (c : Crypto) (y g_y : List Nat) (c_i : Nat)
    (g_x h1 : List Nat) (cred_r : CredentialRPK) (r : List Nat) (c_r : Nat)
    (hexp : ∀ prk info len, (c.hkdf_expand prk info len).length = len)
    (hgy : g_y.length = 32) :
    r_prepare_message_2 c ⟨y, g_y, c_i, g_x, h1⟩ cred_r r c_r =
      .ok (⟨y,
        c.hkdf_extract
          (edhoc_kdf c
            (c.hkdf_extract (c.sha256 (bstr32 g_y ++ bstr32 h1)) (c.p256_ecdh y g_x))
            1 (c.sha256 (bstr32 g_y ++ bstr32 h1)) 32)
          (c.p256_ecdh r g_x),
        c.sha256 (bstr32 (c.sha256 (bstr32 g_y ++ bstr32 h1)) ++
          (c_r :: cred_r.kid :: 0x48 ::
            edhoc_kdf c
              (c.hkdf_extract
                (edhoc_kdf c
                  (c.hkdf_extract (c.sha256 (bstr32 g_y ++ bstr32 h1))
                    (c.p256_ecdh y g_x))
                  1 (c.sha256 (bstr32 g_y ++ bstr32 h1)) 32)
                (c.p256_ecdh r g_x))
              2 (encode_id_cred_kid cred_r.kid ++
                  bstr32 (c.sha256 (bstr32 g_y ++ bstr32 h1)) ++ cred_r.value) 8) ++
          cred_r.value)⟩,
        0x58 :: 43 :: (g_y ++
          xorBytes
            (c_r :: cred_r.kid :: 0x48 ::
              edhoc_kdf c
                (c.hkdf_extract
                  (edhoc_kdf c
                    (c.hkdf_extract (c.sha256 (bstr32 g_y ++ bstr32 h1))
                      (c.p256_ecdh y g_x))
                    1 (c.sha256 (bstr32 g_y ++ bstr32 h1)) 32)
                  (c.p256_ecdh r g_x))
                2 (encode_id_cred_kid cred_r.kid ++
                    bstr32 (c.sha256 (bstr32 g_y ++ bstr32 h1)) ++ cred_r.value) 8)
            (edhoc_kdf c
              (c.hkdf_extract (c.sha256 (bstr32 g_y ++ bstr32 h1)) (c.p256_ecdh y g_x))
              0 (c.sha256 (bstr32 g_y ++ bstr32 h1)) 11))) := by
  have hmaclen : ∀ prk ctx, (edhoc_kdf c prk 2 ctx 8).length = 8 := by
    intro prk ctx
    rw [edhoc_kdf]
    exact hexp ..
  have hkslen : ∀ prk th n, (edhoc_kdf c prk 0 th n).length = n := by
    intro prk th n
    rw [edhoc_kdf]
    exact hexp ..
  rw [r_prepare_message_2]
  simp only [List.length_cons, hmaclen]
  rw [show (8 : Nat) + 1 + 1 + 1 = 11 from rfl]
  rw [encode_bstr_eval43 _ _ hgy (by
    rw [xorBytes_length]
    · simp only [List.length_cons, hmaclen]
    · simp only [List.length_cons, hmaclen, hkslen])]
  rw [if_pos (by
    simp only [List.length_cons, List.length_append, hgy]
    rw [xorBytes_length]
    · simp only [List.length_cons, hmaclen, MAX_MESSAGE_SIZE_LEN]
      omega
    · simp only [List.length_cons, hmaclen, hkslen])]

/-- `encode_bstr` on an 18-byte ciphertext uses the single-byte `0x52`
head. -/
theorem encode_bstr_short18 (b : List Nat) (hb : b.length = 18) :
    encode_bstr b = 0x52 :: b := by
  rw [encode_bstr]
  rw [if_pos (by omega)]
  rw [hb]
  congr 1

/-- `credential_check_or_fetch` resolves a reference-only identifier carrying
the expected credential's own kid to the expected credential. -/
theorem credential_check_kid_self (e : CredentialRPK) :
    credential_check_or_fetch (some e) ⟨[], e.kid, [], true⟩ = .ok e := by
  rw [credential_check_or_fetch]
  simp [CredentialRPK.reference_only]

/-- Evaluating `i_parse_message_2` on a well-formed message_2 whose keystream
is the one the initiator recomputes. -/
theorem i_parse_message_2_eval (c : Crypto) (x h1 g_y : List Nat)
    (c_r kid : Nat) (mac : List Nat)
    (hexp : ∀ prk info len, (c.hkdf_expand prk info len).length = len)
    (hgy : g_y.length = 32) (hmac : mac.length = 8)
    (hcr : c_r ≤ 0x17 ∨ (0x20 ≤ c_r ∧ c_r ≤ 0x37))
    (hkid : kid ≤ 0x17 ∨ (0x20 ≤ kid ∧ kid ≤ 0x37)) :
    i_parse_message_2 c ⟨x, h1⟩
      (0x58 :: 43 :: (g_y ++ xorBytes (c_r :: kid :: 0x48 :: mac)
        (edhoc_kdf c
          (c.hkdf_extract (c.sha256 (bstr32 g_y ++ bstr32 h1)) (c.p256_ecdh x g_y))
          0 (c.sha256 (bstr32 g_y ++ bstr32 h1)) 11))) =
      some (.ok (⟨mac,
        c.hkdf_extract (c.sha256 (bstr32 g_y ++ bstr32 h1)) (c.p256_ecdh x g_y),
        c.sha256 (bstr32 g_y ++ bstr32 h1), x, g_y,
        c_r :: kid :: 0x48 :: mac, c_r, none⟩,
        c_r, ⟨[], kid, [], true⟩, none)) := by
  have hkdf_len : ∀ prk l ctx n, (edhoc_kdf c prk l ctx n).length = n := by
    intro prk l ctx n
    rw [edhoc_kdf]
    exact hexp ..
  have hpt2len : (c_r :: kid :: 0x48 :: mac).length = 11 := by
    simp only [List.length_cons, hmac]
  have hkseq : (edhoc_kdf c
      (c.hkdf_extract (c.sha256 (bstr32 g_y ++ bstr32 h1)) (c.p256_ecdh x g_y))
      0 (c.sha256 (bstr32 g_y ++ bstr32 h1)) 11).length =
      (c_r :: kid :: 0x48 :: mac).length := by
    rw [hkdf_len, hpt2len]
  have hctlen : (xorBytes (c_r :: kid :: 0x48 :: mac)
      (edhoc_kdf c
        (c.hkdf_extract (c.sha256 (bstr32 g_y ++ bstr32 h1)) (c.p256_ecdh x g_y))
        0 (c.sha256 (bstr32 g_y ++ bstr32 h1)) 11)).length = 11 := by
    rw [xorBytes_length _ _ hkseq, hpt2len]
  rw [i_parse_message_2]
  simp only [parse_message_2_roundtrip g_y _ hgy hctlen]
  rw [hctlen]
  rw [xorBytes_cancel _ _ hkseq]
  simp only [decode_plaintext_2_kid_view c_r kid mac hcr hkid hmac]

/-- Evaluating `i_verify_message_2` when the stored MAC_2 is the one the
initiator recomputes (`gr` names the peer public key `G_R`). -/
theorem i_verify_message_2_eval (c : Crypto) (prk_2e th_2 x g_y pt2 : List Nat)
    (c_r : Nat) (vcr : CredentialRPK) (i gr : List Nat)
    (hgr : vcr.public_key = gr) :
    i_verify_message_2 c
      ⟨edhoc_kdf c (c.hkdf_extract (edhoc_kdf c prk_2e 1 th_2 32) (c.p256_ecdh x gr)) 2
          (encode_id_cred_kid vcr.kid ++ bstr32 th_2 ++ vcr.value) 8,
        prk_2e, th_2, x, g_y, pt2, c_r, none⟩ vcr i =
      .ok ⟨c.hkdf_extract (edhoc_kdf c prk_2e 1 th_2 32) (c.p256_ecdh x gr),
        c.hkdf_extract
          (edhoc_kdf c
            (c.hkdf_extract (edhoc_kdf c prk_2e 1 th_2 32) (c.p256_ecdh x gr)) 5
            (c.sha256 (bstr32 th_2 ++ pt2 ++ vcr.value)) 32)
          (c.p256_ecdh i g_y),
        c.sha256 (bstr32 th_2 ++ pt2 ++ vcr.value)⟩ := by
  rw [i_verify_message_2, hgr]
  rw [if_pos rfl]

/-- Evaluating `i_prepare_message_3` (by-reference transfer). -/
theorem i_prepare_message_3_eval (c : Crypto) (prk_3e2m prk_4e3m th_3 : List Nat)
    (cred_i : CredentialRPK)
    (hexp : ∀ prk info len, (c.hkdf_expand prk info len).length = len)
    (haeslen : ∀ k iv aad pt, (c.aes_ccm_encrypt k iv aad pt).length = pt.length + 8) :
    i_prepare_message_3 c ⟨prk_3e2m, prk_4e3m, th_3⟩ cred_i =
      .ok (⟨edhoc_kdf c prk_4e3m 7
          (c.sha256 (bstr32 th_3 ++
            (cred_i.kid :: 0x48 ::
              edhoc_kdf c prk_4e3m 6
                (encode_id_cred_kid cred_i.kid ++ bstr32 th_3 ++ cred_i.value) 8) ++
            cred_i.value)) 32,
        edhoc_kdf c
          (edhoc_kdf c prk_4e3m 7
            (c.sha256 (bstr32 th_3 ++
              (cred_i.kid :: 0x48 ::
                edhoc_kdf c prk_4e3m 6
                  (encode_id_cred_kid cred_i.kid ++ bstr32 th_3 ++ cred_i.value) 8) ++
              cred_i.value)) 32)
          10 [] 32⟩,
        0x52 :: c.aes_ccm_encrypt (edhoc_kdf c prk_3e2m 3 th_3 16)
          (edhoc_kdf c prk_3e2m 4 th_3 13) (enc_structure th_3)
          (cred_i.kid :: 0x48 ::
            edhoc_kdf c prk_4e3m 6
              (encode_id_cred_kid cred_i.kid ++ bstr32 th_3 ++ cred_i.value) 8),
        edhoc_kdf c prk_4e3m 7
          (c.sha256 (bstr32 th_3 ++
            (cred_i.kid :: 0x48 ::
              edhoc_kdf c prk_4e3m 6
                (encode_id_cred_kid cred_i.kid ++ bstr32 th_3 ++ cred_i.value) 8) ++
            cred_i.value)) 32) := by
  have hkdf_len : ∀ prk l ctx n, (edhoc_kdf c prk l ctx n).length = n := by
    intro prk l ctx n
    rw [edhoc_kdf]
    exact hexp ..
  rw [i_prepare_message_3]
  rw [encode_bstr_short18 _ (by
    rw [haeslen]
    simp only [List.length_cons, hkdf_len])]
  rw [if_pos (by
    simp only [List.length_cons, haeslen, hkdf_len, MAX_MESSAGE_SIZE_LEN]
    omega)]

/-- Evaluating `r_parse_message_3` on the initiator's message_3. -/
theorem r_parse_message_3_eval (c : Crypto) (y prk_3e2m th_3 : List Nat)
    (kid : Nat) (mac : List Nat)
    (haes : ∀ k iv aad pt,
      c.aes_ccm_decrypt k iv aad (c.aes_ccm_encrypt k iv aad pt) = some pt)
    (haeslen : ∀ k iv aad pt, (c.aes_ccm_encrypt k iv aad pt).length = pt.length + 8)
    (hkid : kid ≤ 0x17 ∨ (0x20 ≤ kid ∧ kid ≤ 0x37))
    (hmac : mac.length = 8) :
    r_parse_message_3 c ⟨y, prk_3e2m, th_3⟩
      (0x52 :: c.aes_ccm_encrypt (edhoc_kdf c prk_3e2m 3 th_3 16)
        (edhoc_kdf c prk_3e2m 4 th_3 13) (enc_structure th_3)
        (kid :: 0x48 :: mac)) =
      some (.ok (⟨mac, y, prk_3e2m, th_3, kid :: 0x48 :: mac, none⟩,
        ⟨[], kid, [], true⟩, none)) := by
  have hctlen : (c.aes_ccm_encrypt (edhoc_kdf c prk_3e2m 3 th_3 16)
      (edhoc_kdf c prk_3e2m 4 th_3 13) (enc_structure th_3)
      (kid :: 0x48 :: mac)).length = 18 := by
    rw [haeslen]
    simp only [List.length_cons, hmac]
  set CT3 := c.aes_ccm_encrypt (edhoc_kdf c prk_3e2m 3 th_3 16)
    (edhoc_kdf c prk_3e2m 4 th_3 13) (enc_structure th_3)
    (kid :: 0x48 :: mac) with hCT3
  have hD0 : ((0x52 : Nat) :: CT3).drop 0 = (0x40 + 18) :: (CT3 ++ []) := by
    simp
  have hD1 : ((0x52 : Nat) :: CT3).drop (0 + 1) = CT3 ++ [] :=
    CBORDecoder.drop_succ_of_drop_cons hD0
  have hD2 : ((0x52 : Nat) :: CT3).drop (0 + 1 + 18) = [] := by
    have h := CBORDecoder.drop_shift_of_drop_append hD1
    rwa [hctlen] at h
  have hBlen : ((0x52 : Nat) :: CT3).length = 19 := by
    simp only [List.length_cons, hctlen]
  rw [r_parse_message_3]
  simp only [CBORDecoder.new]
  simp only [CBORDecoder.bytes_short_view hD0 hctlen (by omega)]
  rw [CBORDecoder.finished_view hD2 (by simp only [hBlen]; omega)]
  rw [if_pos rfl]
  simp only [hCT3, haes]
  simp only [decode_plaintext_3_kid_view kid mac hkid hmac]

/-- Evaluating `r_verify_message_3` when the stored MAC_3 is the one the
responder recomputes (`gi` names the peer public key `G_I`). -/
theorem r_verify_message_3_eval (c : Crypto) (y prk_3e2m th_3 pt3 : List Nat)
    (vci : CredentialRPK) (gi : List Nat) (hgi : vci.public_key = gi) :
    r_verify_message_3 c
      ⟨edhoc_kdf c
          (c.hkdf_extract (edhoc_kdf c prk_3e2m 5 th_3 32) (c.p256_ecdh y gi)) 6
          (encode_id_cred_kid vci.kid ++ bstr32 th_3 ++ vci.value) 8,
        y, prk_3e2m, th_3, pt3, none⟩ vci =
      .ok (⟨edhoc_kdf c
          (c.hkdf_extract (edhoc_kdf c prk_3e2m 5 th_3 32) (c.p256_ecdh y gi)) 7
          (c.sha256 (bstr32 th_3 ++ pt3 ++ vci.value)) 32,
        edhoc_kdf c
          (edhoc_kdf c
            (c.hkdf_extract (edhoc_kdf c prk_3e2m 5 th_3 32) (c.p256_ecdh y gi)) 7
            (c.sha256 (bstr32 th_3 ++ pt3 ++ vci.value)) 32)
          10 [] 32⟩,
        edhoc_kdf c
          (c.hkdf_extract (edhoc_kdf c prk_3e2m 5 th_3 32) (c.p256_ecdh y gi)) 7
          (c.sha256 (bstr32 th_3 ++ pt3 ++ vci.value)) 32) := by
  rw [r_verify_message_3, hgi]
  rw [if_pos rfl]

/-- C1: for well-formed credentials and keys, a full three-message handshake
between a fresh initiator and responder succeeds and yields the same
`PRK_out` on both sides, with the 16-byte label-0 and 8-byte label-1
exporter outputs (empty context) agreeing as well.  The crypto backend is
abstract: ECDH must commute on honest key pairs, HKDF-Expand returns the
requested length, and AES-CCM decryption inverts encryption. -/
theorem handshake_round_trip :
    ∀ (c : Crypto) (cred_i cred_r : CredentialRPK) (i r x y : List Nat)
      (c_i c_r : Nat),
      (∀ a b, c.p256_ecdh a (c.pub_of b) = c.p256_ecdh b (c.pub_of a)) →
      (∀ prk info len, (c.hkdf_expand prk info len).length = len) →
      (∀ k iv aad pt,
        c.aes_ccm_decrypt k iv aad (c.aes_ccm_encrypt k iv aad pt) = some pt) →
      (∀ k iv aad pt, (c.aes_ccm_encrypt k iv aad pt).length = pt.length + 8) →
      (∀ sk, (c.pub_of sk).length = 32) →
      cred_i.public_key = c.pub_of i →
      cred_r.public_key = c.pub_of r →
      (cred_i.kid ≤ 0x17 ∨ (0x20 ≤ cred_i.kid ∧ cred_i.kid ≤ 0x37)) →
      (cred_r.kid ≤ 0x17 ∨ (0x20 ≤ cred_r.kid ∧ cred_r.kid ≤ 0x37)) →
      (c_i ≤ 0x17 ∨ (0x20 ≤ c_i ∧ c_i ≤ 0x37)) →
      (c_r ≤ 0x17 ∨ (0x20 ≤ c_r ∧ c_r ≤ 0x37)) →
      ∃ out : HandshakeOutcome,
        handshake c cred_i i cred_r r x y c_i c_r = some out ∧
        out.i_prk_out = out.r_prk_out ∧
        out.i_oscore_secret = out.r_oscore_secret ∧
        out.i_oscore_salt = out.r_oscore_salt ∧
        out.i_oscore_secret.length = 16 ∧ out.i_oscore_salt.length = 8 := by
  intro c cred_i cred_r i r x y c_i c_r hcomm hexp haes haeslen hpub hpki hpkr
    hkidi hkidr hci hcr
  have hkdf_len : ∀ prk l ctx n, (edhoc_kdf c prk l ctx n).length = n := by
    intro prk l ctx n
    rw [edhoc_kdf]
    exact hexp ..
  rw [handshake]
  rw [i_prepare_message_1_eval c]
  simp only []
  rw [r_process_message_1_eval c]
  simp only []
  rw [r_prepare_message_2_eval c]
  simp only []
  rw [hcomm y x, hcomm r x]
  rw [i_parse_message_2_eval c]
  simp only []
  rw [credential_check_kid_self cred_r]
  simp only []
  rw [i_verify_message_2_eval c]
  simp only []
  rw [i_prepare_message_3_eval c]
  simp only []
  rw [hcomm i y]
  rw [r_parse_message_3_eval c]
  simp only []
  rw [credential_check_kid_self cred_i]
  simp only []
  rw [r_verify_message_3_eval c]
  simp only [edhoc_exporter]
  exact ⟨_, rfl, rfl, rfl, rfl, hkdf_len .., hkdf_len ..⟩
  all_goals first
    | exact hexp
    | exact haes
    | exact haeslen
    | exact hpub _
    | exact hci
    | exact hcr
    | exact hkidi
    | exact hkidr
    | exact hpki
    | exact hpkr
    | exact hkdf_len ..

/-- C1 (witness): the round-trip theorem instantiated at the concrete
backend `cryptoW` and credentials `credIW`, `credRW`. -/
theorem handshake_round_trip_witness :
    ∃ out : HandshakeOutcome,
      handshake cryptoW credIW (List.replicate 32 5) credRW (List.replicate 32 6)
        (List.replicate 32 7) (List.replicate 32 8) 0x12 0x27 = some out ∧
      out.i_prk_out = out.r_prk_out ∧
      out.i_oscore_secret = out.r_oscore_secret ∧
      out.i_oscore_salt = out.r_oscore_salt ∧
      out.i_oscore_secret.length = 16 ∧ out.i_oscore_salt.length = 8 :=
  handshake_round_trip cryptoW credIW credRW (List.replicate 32 5)
    (List.replicate 32 6) (List.replicate 32 7) (List.replicate 32 8) 0x12 0x27
    (fun _ _ => rfl)
    (fun _ _ len => List.length_replicate len 2)
    (fun k iv aad pt => by simp [cryptoW])
    (fun k iv aad pt => by simp [cryptoW])
    (fun _ => List.length_replicate 32 3)
    rfl rfl (by decide) (by decide) (by decide) (by decide)

/-!
## PLAINTEXT_2 decoding (C7)
-/

/-- C7 (counterexample): the claim says a length-1 byte-string `ID_CRED_R`
always yields `ParsingError`, but the two-byte-head form `0x58 0x01` passes
the `info > 1` guard (info = 24): this PLAINTEXT_2 decodes successfully with
a one-byte full credential. -/
theorem decode_plaintext_2_len1_bstr_cex :
    decode_plaintext_2 [0x00, 0x58, 0x01, 0xAA, 0x48, 1, 2, 3, 4, 5, 6, 7, 8] =
      some (.ok (0, .FullCredential [0xAA], [1, 2, 3, 4, 5, 6, 7, 8], none)) ∧
      List.length [(0xAA : Nat)] = 1 :=
  ⟨rfl, rfl⟩

/-- C7 (amended): `decode_plaintext_2` classifies `ID_CRED_R` purely by its
head byte: major type 2 with additional info `> 1` (short-form length 2..23,
or the `0x58` one-byte-length form of *any* length, including 0 and 1) is a
full credential; otherwise the item is read as a single-byte integer kid; in
particular the short-form length-1 byte string `0x41` is a `ParsingError`. -/
theorem decode_plaintext_2_id_cred_spec :
    ∀ (c_r kid k : Nat) (v mac rest : List Nat),
      (c_r ≤ 0x17 ∨ (0x20 ≤ c_r ∧ c_r ≤ 0x37)) →
      mac.length = MAC_LENGTH →
      ((2 ≤ k ∧ k ≤ 23 ∧ v.length = k →
        decode_plaintext_2 (c_r :: (0x40 + k) :: (v ++ 0x48 :: mac)) =
          some (.ok (c_r, .FullCredential v, mac, none))) ∧
      ((kid ≤ 0x17 ∨ (0x20 ≤ kid ∧ kid ≤ 0x37)) →
        decode_plaintext_2 (c_r :: kid :: 0x48 :: mac) =
          some (.ok (c_r, .CompactKid kid, mac, none))) ∧
      decode_plaintext_2 (c_r :: 0x41 :: rest) = some (.error .ParsingError)) := by
  intro c_r kid k v mac rest hcr hmac
  have hmac8 : mac.length = 8 := hmac
  refine ⟨?_, ?_, ?_⟩
  · rintro ⟨hk2, hk23, hvlen⟩
    set B := c_r :: (0x40 + k) :: (v ++ 0x48 :: mac) with hB
    have hD0 : B.drop 0 = c_r :: ((0x40 + k) :: (v ++ 0x48 :: mac)) := rfl
    have hD1 : B.drop (0 + 1) = (0x40 + k) :: (v ++ 0x48 :: mac) :=
      CBORDecoder.drop_succ_of_drop_cons hD0
    have hD2 : B.drop (0 + 1 + 1) = v ++ 0x48 :: mac :=
      CBORDecoder.drop_succ_of_drop_cons hD1
    have hD3 : B.drop (0 + 1 + 1 + k) = 0x48 :: mac := by
      have h := CBORDecoder.drop_shift_of_drop_append hD2
      rwa [hvlen] at h
    have hD3' : B.drop (0 + 1 + 1 + k) = (0x40 + MAC_LENGTH) :: (mac ++ []) := by
      rw [hD3]
      simp [MAC_LENGTH]
    have hD4 : B.drop (0 + 1 + 1 + k + 1) = mac ++ [] := by
      have h := CBORDecoder.drop_succ_of_drop_cons hD3
      rw [h]
      simp
    have hD5 : B.drop (0 + 1 + 1 + k + 1 + MAC_LENGTH) = [] := by
      have h := CBORDecoder.drop_shift_of_drop_append hD4
      rwa [hmac] at h
    have hBlen : B.length = k + 11 := by
      simp only [hB, List.length_cons, List.length_append, hvlen, hmac8]
    rw [decode_plaintext_2]
    simp only [CBORDecoder.new]
    simp only [CBORDecoder.int_raw_view hD0 hcr]
    simp only [CBORDecoder.current_view hD1]
    rw [if_pos ⟨by rw [CBORDecoder.type_of_add_0x40 (by omega)]; rfl,
      by rw [CBORDecoder.info_of_add_0x40 (by omega)]; omega⟩]
    simp only [CBORDecoder.bytes_short_view (n := k) hD1 hvlen (by omega)]
    simp only [CBORDecoder.bytes_sized_short_view (n := MAC_LENGTH) hD3'
      (by simpa using hmac) (by decide)]
    rw [if_neg (by simp only [CBORDecoder.position, hBlen, MAC_LENGTH]; omega)]
    rw [CBORDecoder.finished_view hD5 (by simp only [hBlen, MAC_LENGTH]; omega)]
    simp
  · intro hkid
    set B := c_r :: kid :: 0x48 :: mac with hB
    have hD0 : B.drop 0 = c_r :: (kid :: 0x48 :: mac) := rfl
    have hD1 : B.drop (0 + 1) = kid :: (0x48 :: mac) :=
      CBORDecoder.drop_succ_of_drop_cons hD0
    have hD2 : B.drop (0 + 1 + 1) = 0x48 :: mac :=
      CBORDecoder.drop_succ_of_drop_cons hD1
    have hD2' : B.drop (0 + 1 + 1) = (0x40 + MAC_LENGTH) :: (mac ++ []) := by
      rw [hD2]
      simp [MAC_LENGTH]
    have hD3 : B.drop (0 + 1 + 1 + 1) = mac ++ [] := by
      have h := CBORDecoder.drop_succ_of_drop_cons hD2
      rw [h]
      simp
    have hD4 : B.drop (0 + 1 + 1 + 1 + MAC_LENGTH) = [] := by
      have h := CBORDecoder.drop_shift_of_drop_append hD3
      rwa [hmac] at h
    have hBlen : B.length = 11 := by
      simp [hB, hmac8]
    rw [decode_plaintext_2]
    simp only [CBORDecoder.new]
    simp only [CBORDecoder.int_raw_view hD0 hcr]
    simp only [CBORDecoder.current_view hD1]
    rw [if_neg (by
      rcases hkid with h | h
      · rw [CBORDecoder.type_of_small h]
        simp [CBOR_MAJOR_BYTE_STRING]
      · rw [CBORDecoder.type_of_neg_int h.1 h.2]
        simp [CBOR_MAJOR_BYTE_STRING])]
    simp only [CBORDecoder.int_raw_view hD1 hkid]
    simp only [CBORDecoder.bytes_sized_short_view (n := MAC_LENGTH) hD2'
      (by simpa using hmac) (by decide)]
    rw [if_neg (by simp [CBORDecoder.position, hBlen, MAC_LENGTH])]
    rw [CBORDecoder.finished_view hD4 (by simp [hBlen, MAC_LENGTH])]
    simp
  · set B := c_r :: 0x41 :: rest with hB
    have hD0 : B.drop 0 = c_r :: (0x41 :: rest) := rfl
    have hD1 : B.drop (0 + 1) = 0x41 :: rest :=
      CBORDecoder.drop_succ_of_drop_cons hD0
    rw [decode_plaintext_2]
    simp only [CBORDecoder.new]
    simp only [CBORDecoder.int_raw_view hD0 hcr]
    simp only [CBORDecoder.current_view hD1]
    rw [if_neg (by decide)]
    simp only [CBORDecoder.int_raw_invalid_view hD1 (by decide)]

/-- C7 (witness): the amended statement's compact-kid clause at the concrete
PLAINTEXT_2 `00 0A 48 01..08`. -/
theorem decode_plaintext_2_id_cred_spec_witness :
    decode_plaintext_2 [0x00, 0x0A, 0x48, 1, 2, 3, 4, 5, 6, 7, 8] =
      some (.ok (0, .CompactKid 0x0A, [1, 2, 3, 4, 5, 6, 7, 8], none)) :=
  (decode_plaintext_2_id_cred_spec 0 0x0A 0 [] [1, 2, 3, 4, 5, 6, 7, 8] []
    (by decide) (by decide)).2.1 (by decide)

/-!
## Suites parsing (C8, C10)
-/

/-- C8 (counterexample): a CBOR array announcing exactly one element with the
two-byte head `0x98 0x01` is *accepted* by `parse_suites_i` (its `info ≥ 2`
guard sees info = 24), contradicting the claim that a one-element array is
rejected regardless of head encoding. -/
theorem parse_suites_i_one_elem_array_cex :
    parse_suites_i ⟨[0x98, 0x01, 0x02], 0⟩ =
      .ok ([2, 0, 0, 0, 0, 0, 0, 0, 0], 1, ⟨[0x98, 0x01, 0x02], 3⟩) ∧
      parse_suites_i ⟨[0x98, 0x01, 0x02], 0⟩ ≠ .error .ParsingError := by
  refine ⟨rfl, fun hcontra => ?_⟩
  rw [show parse_suites_i ⟨[0x98, 0x01, 0x02], 0⟩ =
    .ok ([2, 0, 0, 0, 0, 0, 0, 0, 0], 1, ⟨[0x98, 0x01, 0x02], 3⟩) from rfl] at hcontra
  exact Except.noConfusion hcontra

/-- C8 (amended): a bare single-byte unsigned integer is accepted as a
one-suite list; a one-element array with the short-form head `0x81` is
rejected with `ParsingError`; but the same one-element array with the
two-byte head `0x98 0x01` is accepted. -/
theorem parse_suites_i_forms :
    (∀ s rest, s ≤ 0x17 →
      parse_suites_i ⟨s :: rest, 0⟩ =
        .ok ((List.replicate SUITES_LEN 0).set 0 s, 1, ⟨s :: rest, 0 + 1⟩)) ∧
    (∀ rest, parse_suites_i ⟨0x81 :: rest, 0⟩ = .error .ParsingError) ∧
    (∀ s rest, s ≤ 0x17 →
      parse_suites_i ⟨0x98 :: 1 :: s :: rest, 0⟩ =
        .ok ((List.replicate SUITES_LEN 0).set 0 s, 1,
          ⟨0x98 :: 1 :: s :: rest, 0 + 1 + 1 + 1⟩)) := by
  refine ⟨?_, ?_, ?_⟩
  · intro s rest hs
    have hD0 : (s :: rest).drop 0 = s :: rest := rfl
    rw [parse_suites_i]
    simp only [CBORDecoder.current_view hD0]
    rw [if_pos (by rw [CBORDecoder.type_of_small hs])]
    simp only [CBORDecoder.u8_single_view hD0 hs]
  · intro rest
    have hD0 : ((0x81 : Nat) :: rest).drop 0 = 0x81 :: rest := rfl
    rw [parse_suites_i]
    simp only [CBORDecoder.current_view hD0]
    rw [if_neg (by decide), if_neg (by decide)]
  · intro s rest hs
    set B := (0x98 : Nat) :: 1 :: s :: rest with hB
    have hD0 : B.drop 0 = 0x98 :: (1 :: s :: rest) := rfl
    have hD1 : B.drop (0 + 1) = 1 :: (s :: rest) :=
      CBORDecoder.drop_succ_of_drop_cons hD0
    have hD2 : B.drop (0 + 1 + 1) = s :: rest :=
      CBORDecoder.drop_succ_of_drop_cons hD1
    have hD2' : B.drop (0 + 1 + 1) = [s] ++ rest := hD2
    have hloop := readSuitesLoop_view [s] B (0 + 1 + 1) 0
      (List.replicate SUITES_LEN 0) rest hD2' (by simpa using hs)
    simp only [List.length_singleton] at hloop
    rw [parse_suites_i]
    simp only [CBORDecoder.current_view hD0]
    rw [if_neg (by decide), if_pos (by decide)]
    simp only [CBORDecoder.array_long_view hD0]
    rw [if_pos (by simp [SUITES_LEN])]
    simp only [hloop]
    simp [setSeq]

/-- C10: `parse_suites_i` accepts at most `SUITES_LEN = 9` offered suites:
an array head announcing more than 9 elements (short form `0x80+m` or the
two-byte form `0x98 m`) is a `ParsingError`, while arrays of 2 to 9 u8
elements — each in either u8 wire form, the single byte below `0x18` or the
two-byte `0x18 v` form (values 24..=255 included), under either array head
form — are accepted and copied in order into the fixed 9-slot suites
buffer. -/
theorem parse_suites_i_capacity :
    (∀ m rest, 9 < m → m ≤ 23 →
      parse_suites_i ⟨(0x80 + m) :: rest, 0⟩ = .error .ParsingError) ∧
    (∀ m rest, 9 < m →
      parse_suites_i ⟨0x98 :: m :: rest, 0⟩ = .error .ParsingError) ∧
    (∀ (n : Nat) (items : List (Nat × Bool)), items.length = n → 2 ≤ n → n ≤ 9 →
      (∀ q ∈ items, q.2 = false → q.1 ≤ 0x17) →
      parse_suites_i ⟨(0x80 + n) :: encodeSuites items, 0⟩ =
        .ok (items.map Prod.fst ++ List.replicate (9 - n) 0, n,
          ⟨(0x80 + n) :: encodeSuites items, 1 + (encodeSuites items).length⟩)) ∧
    (∀ (n : Nat) (items : List (Nat × Bool)), items.length = n → 2 ≤ n → n ≤ 9 →
      (∀ q ∈ items, q.2 = false → q.1 ≤ 0x17) →
      parse_suites_i ⟨0x98 :: n :: encodeSuites items, 0⟩ =
        .ok (items.map Prod.fst ++ List.replicate (9 - n) 0, n,
          ⟨0x98 :: n :: encodeSuites items, 2 + (encodeSuites items).length⟩)) := by
  refine ⟨?_, ?_, ?_, ?_⟩
  · intro m rest h9 h23
    have hD0 : ((0x80 + m) :: rest).drop 0 = (0x80 + m) :: rest := rfl
    rw [parse_suites_i]
    simp only [CBORDecoder.current_view hD0]
    rw [if_neg (by rw [CBORDecoder.type_of_add_0x80 (by omega)]; omega)]
    rw [if_pos ⟨by rw [CBORDecoder.type_of_add_0x80 (by omega)]; rfl,
      by rw [CBORDecoder.info_of_add_0x80 (by omega)]; omega⟩]
    simp only [CBORDecoder.array_short_view hD0 h23]
    rw [if_neg (by simp only [List.length_replicate, SUITES_LEN]; omega)]
  · intro m rest h9
    have hD0 : ((0x98 : Nat) :: m :: rest).drop 0 = 0x98 :: (m :: rest) := rfl
    rw [parse_suites_i]
    simp only [CBORDecoder.current_view hD0]
    rw [if_neg (by decide), if_pos (by decide)]
    simp only [CBORDecoder.array_long_view hD0]
    rw [if_neg (by simp only [List.length_replicate, SUITES_LEN]; omega)]
  · intro n items hlen h2 h9 hall
    subst hlen
    have hD0 : ((0x80 + items.length) :: encodeSuites items).drop 0 =
        (0x80 + items.length) :: encodeSuites items := rfl
    have hD1 : ((0x80 + items.length) :: encodeSuites items).drop (0 + 1) =
        encodeSuites items ++ [] := by
      rw [CBORDecoder.drop_succ_of_drop_cons hD0]
      exact (List.append_nil _).symm
    have hloop := readSuitesLoop_view_items items
      ((0x80 + items.length) :: encodeSuites items) (0 + 1) 0
      (List.replicate SUITES_LEN 0) [] hD1 hall
    have hset : setSeq (List.replicate SUITES_LEN 0) 0 (items.map Prod.fst) =
        items.map Prod.fst ++ List.replicate (9 - items.length) 0 := by
      have h := setSeq_prefix (items.map Prod.fst) [] (9 - items.length)
      simp only [List.nil_append, List.length_nil] at h
      rw [show (items.map Prod.fst).length + (9 - items.length) = SUITES_LEN from by
        simp only [List.length_map, SUITES_LEN]; omega] at h
      exact h
    rw [parse_suites_i]
    simp only [CBORDecoder.current_view hD0]
    rw [if_neg (by rw [CBORDecoder.type_of_add_0x80 (by omega)]; omega)]
    rw [if_pos ⟨by rw [CBORDecoder.type_of_add_0x80 (by omega)]; rfl,
      by rw [CBORDecoder.info_of_add_0x80 (by omega)]; omega⟩]
    simp only [CBORDecoder.array_short_view hD0 (by omega)]
    rw [if_pos (by simp only [List.length_replicate, SUITES_LEN]; omega)]
    simp only [hloop]
    rw [hset]
  · intro n items hlen h2 h9 hall
    subst hlen
    have hD0 : ((0x98 : Nat) :: items.length :: encodeSuites items).drop 0 =
        0x98 :: items.length :: encodeSuites items := rfl
    have hD1 : ((0x98 : Nat) :: items.length :: encodeSuites items).drop (0 + 1) =
        items.length :: encodeSuites items :=
      CBORDecoder.drop_succ_of_drop_cons hD0
    have hD2 : ((0x98 : Nat) :: items.length :: encodeSuites items).drop (0 + 1 + 1) =
        encodeSuites items ++ [] := by
      rw [CBORDecoder.drop_succ_of_drop_cons hD1]
      exact (List.append_nil _).symm
    have hloop := readSuitesLoop_view_items items
      ((0x98 : Nat) :: items.length :: encodeSuites items) (0 + 1 + 1) 0
      (List.replicate SUITES_LEN 0) [] hD2 hall
    have hset : setSeq (List.replicate SUITES_LEN 0) 0 (items.map Prod.fst) =
        items.map Prod.fst ++ List.replicate (9 - items.length) 0 := by
      have h := setSeq_prefix (items.map Prod.fst) [] (9 - items.length)
      simp only [List.nil_append, List.length_nil] at h
      rw [show (items.map Prod.fst).length + (9 - items.length) = SUITES_LEN from by
        simp only [List.length_map, SUITES_LEN]; omega] at h
      exact h
    rw [parse_suites_i]
    simp only [CBORDecoder.current_view hD0]
    rw [if_neg (by decide), if_pos (by decide)]
    simp only [CBORDecoder.array_long_view hD0]
    rw [if_pos (by simp only [List.length_replicate, SUITES_LEN]; omega)]
    simp only [hloop]
    rw [hset]

/-- C10 (witness): a two-element array whose first suite is single-byte and
whose second, 24, uses the two-byte `0x18` form, is accepted and copied in
order into the 9-slot buffer. -/
theorem parse_suites_i_capacity_witness :
    parse_suites_i ⟨[0x82, 6, 0x18, 24], 0⟩ =
      .ok ([6, 24, 0, 0, 0, 0, 0, 0, 0], 2, ⟨[0x82, 6, 0x18, 24], 4⟩) := by
  have h := parse_suites_i_capacity.2.2.1 2 [(6, false), (24, true)] rfl
    (by omega) (by omega) (by decide)
  simpa [encodeSuites] using h

/-- C8 (witness): the amended statement's bare-integer clause at suite 2. -/
theorem parse_suites_i_forms_witness :
    parse_suites_i ⟨[2], 0⟩ =
      .ok ([2, 0, 0, 0, 0, 0, 0, 0, 0], 1, ⟨[2], 1⟩) := by
  have h := parse_suites_i_forms.1 2 [] (by decide)
  simpa using h

end Lakers
